import Mathlib

/-!
Verification of the `offload` photo/video offloading tool.

This file gives a shallow embedding of the metadata-extraction, bucketing,
sorting and archiving logic of `src/offload/photo_offloader.py` and
`src/offload/video_offloader.py` (shared constants from
`src/offload/constants.py`), and proves or refutes the specification claims
about it.

Modelling conventions:
* Python `float` values are modelled as `ℚ` (exact rational arithmetic).
* Python `datetime.datetime` is the `DateTime` structure below; a value built
  by the parsers always satisfies the `datetime` constructor's range checks.
* Metadata dictionaries are association lists `List (String × TagVal)`;
  `TagVal.bad` models a value whose `str()` conversion raises.
* Fallible actions of external collaborators (opening an image, running the
  exiftool probe, `stat`) are passed in as `Except`/`Option` arguments.
* `datetime.strptime` is modelled faithfully after CPython's `_strptime`
  regex semantics (field-level backtracking, whole-string consumption,
  constructor range validation).
-/

/-- Python `datetime.datetime`: naive timestamp, no timezone. -/
structure DateTime where
  year : Nat
  month : Nat
  day : Nat
  hour : Nat
  minute : Nat
  second : Nat
  microsecond : Nat
deriving DecidableEq, Repr

/-- Value stored under a metadata tag.  `str s` is a Python string, `intV n`
a Python integer (whose `str()` is its decimal representation), and `bad`
models an object whose `str()` conversion raises (a `TypeError`, say:
caught where a local handler lists it, escaping to the extractor's
top-level handler where none does). -/
inductive TagVal where
  | str (s : String)
  | intV (n : Int)
  | bad
deriving DecidableEq, Repr

/-- Python `str(v)`, `none` when the conversion raises. -/
def TagVal.pyStr : TagVal → Option String
  | .str s => some s
  | .intV n => some (toString n)
  | .bad => none

/-- Metadata mapping as returned by exiftool / built from EXIF: tag name to
value; lookup returns the first binding (Python dicts have unique keys). -/
abbrev TagDict := List (String × TagVal)

/-- Dictionary lookup, `d[k]` / `k in d`. -/
def TagDict.get? (d : TagDict) (k : String) : Option TagVal :=
  match d.find? (fun kv => kv.1 = k) with
  | some kv => some kv.2
  | none => none

/-- Python dict truthiness: non-empty. -/
def TagDict.nonempty (d : TagDict) : Bool :=
  match d with
  | [] => false
  | _ :: _ => true

/-- ASCII whitespace, the characters matched by `\s` and `str.split()`
(unicode whitespace is not modelled). -/
def isPySpace (c : Char) : Bool :=
  c = ' ' ∨ c = '\t' ∨ c = '\n' ∨ c = '\r' ∨ c = '\x0b' ∨ c = '\x0c'

/-- Numeric value of an ASCII digit. -/
def digitVal (c : Char) : Nat := c.toNat - 48

/-- Value of a list of ASCII digits read in base 10. -/
def digitsToNat (cs : List Char) : Nat :=
  cs.foldl (fun acc c => 10 * acc + digitVal c) 0

/-! ### CPython `_strptime` directive semantics

Each numeric directive compiles to a regex alternation that matches one or
two digits (four for `%Y`).  `num2or1 ok2 ok1 cs k` tries the two-digit
alternatives first and falls back to one digit when the rest of the pattern
(the continuation `k`) fails, exactly like regex backtracking. -/

/-- Two-or-one digit directive with backtracking into the continuation. -/
def num2or1 {α : Type} (ok2 : Char → Char → Bool) (ok1 : Char → Bool)
    (cs : List Char) (k : Nat → List Char → Option α) : Option α :=
  (match cs with
   | c1 :: c2 :: rest =>
     if c1.isDigit ∧ c2.isDigit ∧ ok2 c1 c2 then
       k (10 * digitVal c1 + digitVal c2) rest
     else none
   | _ => none).orElse fun _ =>
    match cs with
    | c1 :: rest => if c1.isDigit ∧ ok1 c1 then k (digitVal c1) rest else none
    | _ => none

/-- Four-digit directive `%Y` (the regex is exactly `\d\d\d\d`). -/
def num4 {α : Type} (cs : List Char) (k : Nat → List Char → Option α) : Option α :=
  match cs with
  | a :: b :: c :: d :: rest =>
    if a.isDigit ∧ b.isDigit ∧ c.isDigit ∧ d.isDigit then
      k (digitsToNat [a, b, c, d]) rest
    else none
  | _ => none

/-- Literal character in the format string. -/
def litCh {α : Type} (ch : Char) (cs : List Char) (k : List Char → Option α) : Option α :=
  match cs with
  | c :: rest => if c = ch then k rest else none
  | _ => none

/-- Whitespace in the format string compiles to `\s+`: one or more whitespace
characters (maximal munch; nothing after it can match whitespace). -/
def ws1 {α : Type} (cs : List Char) (k : List Char → Option α) : Option α :=
  match cs with
  | c :: rest => if isPySpace c then k (rest.dropWhile isPySpace) else none
  | _ => none

/-- Regex alternatives for `%m`: `1[0-2]|0[1-9]` two-digit, `[1-9]` one-digit. -/
def monthOk2 (c1 c2 : Char) : Bool :=
  (c1 = '1' ∧ '0' ≤ c2 ∧ c2 ≤ '2') ∨ (c1 = '0' ∧ '1' ≤ c2 ∧ c2 ≤ '9')

def monthOk1 (c : Char) : Bool := '1' ≤ c ∧ c ≤ '9'

/-- Regex alternatives for `%d`: `3[01]|[12]\d|0[1-9]` / `[1-9]`. -/
def dayOk2 (c1 c2 : Char) : Bool :=
  (c1 = '3' ∧ ('0' ≤ c2 ∧ c2 ≤ '1')) ∨ (c1 = '1' ∨ c1 = '2') ∨
    (c1 = '0' ∧ '1' ≤ c2 ∧ c2 ≤ '9')

def dayOk1 (c : Char) : Bool := '1' ≤ c ∧ c ≤ '9'

/-- Regex alternatives for `%H`: `2[0-3]|[0-1]\d` / `\d`. -/
def hourOk2 (c1 c2 : Char) : Bool :=
  (c1 = '2' ∧ '0' ≤ c2 ∧ c2 ≤ '3') ∨ (c1 = '0' ∨ c1 = '1')

def anyDigit1 (_ : Char) : Bool := true

/-- Regex alternatives for `%M`: `[0-5]\d` / `\d`. -/
def minuteOk2 (c1 _c2 : Char) : Bool := '0' ≤ c1 ∧ c1 ≤ '5'

/-- Regex alternatives for `%S`: `6[01]|[0-5]\d` / `\d` (leap seconds are
matched by the regex and rejected by the `datetime` constructor). -/
def secondOk2 (c1 c2 : Char) : Bool :=
  (c1 = '6' ∧ ('0' ≤ c2 ∧ c2 ≤ '1')) ∨ ('0' ≤ c1 ∧ c1 ≤ '5')

/-- Leap-year test of `calendar.isleap`. -/
def isLeap (y : Nat) : Bool := y % 4 = 0 ∧ (y % 100 ≠ 0 ∨ y % 400 = 0)

/-- Days in a month, as validated by the `datetime` constructor. -/
def daysInMonth (y m : Nat) : Nat :=
  if m = 2 then (if isLeap y then 29 else 28)
  else if m = 4 ∨ m = 6 ∨ m = 9 ∨ m = 11 then 30
  else 31

/-- Range validation performed by the `datetime.datetime` constructor;
`none` models the `ValueError` it raises. -/
def mkDateTime (y mo d h mi s μ : Nat) : Option DateTime :=
  if 1 ≤ y ∧ y ≤ 9999 ∧ 1 ≤ mo ∧ mo ≤ 12 ∧ 1 ≤ d ∧ d ≤ daysInMonth y mo ∧
      h ≤ 23 ∧ mi ≤ 59 ∧ s ≤ 59 ∧ μ ≤ 999999 then
    some ⟨y, mo, d, h, mi, s, μ⟩
  else none

/-- Continuation ending a format: `strptime` requires the whole input string
to have been consumed ("unconverted data remains" otherwise). -/
def atEnd (y mo d h mi s μ : Nat) (cs : List Char) : Option DateTime :=
  if cs = [] then mkDateTime y mo d h mi s μ else none

/-- Model of `datetime.strptime(s, "%Y:%m:%d %H:%M:%S")`, the fixed EXIF
date format of `PhotoOffloader.EXIF_DATE_FORMAT`. -/
def strptimeExif (s : String) : Option DateTime :=
  num4 s.data fun y r1 =>
  litCh ':' r1 fun r2 =>
  num2or1 monthOk2 monthOk1 r2 fun mo r3 =>
  litCh ':' r3 fun r4 =>
  num2or1 dayOk2 dayOk1 r4 fun d r5 =>
  ws1 r5 fun r6 =>
  num2or1 hourOk2 anyDigit1 r6 fun h r7 =>
  litCh ':' r7 fun r8 =>
  num2or1 minuteOk2 anyDigit1 r8 fun mi r9 =>
  litCh ':' r9 fun r10 =>
  num2or1 secondOk2 anyDigit1 r10 fun sec r11 =>
  atEnd y mo d h mi sec 0 r11

/-! ### Shared constants (`src/offload/constants.py`) -/

def UNKNOWN_BUCKET_KEY : String := "Unknown"
def UNKNOWN_DIRECTORY : String := "unknown"
def DEFAULT_LATITUDE_REF : String := "N"
def DEFAULT_LONGITUDE_REF : String := "E"

/-- Directions that make coordinates negative. -/
def NEGATIVE_DIRECTIONS : List String := ["S", "W"]

def YEAR_MONTH_SEPARATOR : String := "-"

/-- Grouping and sorting selector (`constants.GroupBy`). -/
inductive GroupBy where
  | software
  | camera_make
  | camera_model
  | year
  | year_month
  | year_month_day
deriving DecidableEq, Repr

/-! ### Metadata records

`PhotoMetadata` and `VideoMetadata` are dataclasses with identical fields;
both are modelled by `MediaMetadata`. -/

structure MediaMetadata where
  path : String
  date_taken : Option DateTime := none
  location : Option (ℚ × ℚ) := none
  camera_make : Option String := none
  camera_model : Option String := none
  software : Option String := none
deriving DecidableEq, Repr

namespace PhotoOffloader

/-- Conversion of degrees, minutes, seconds to decimal degrees
(`PhotoOffloader._dms_to_decimal`; `MINUTES_PER_DEGREE = 60.0`,
`SECONDS_PER_DEGREE = 3600.0`). -/
def _dms_to_decimal (dms : ℚ × ℚ × ℚ) (ref : String) : ℚ :=
  let degrees := dms.1
  let minutes := dms.2.1 / 60
  let seconds := dms.2.2 / 3600
  let decimal := degrees + minutes + seconds
  if NEGATIVE_DIRECTIONS.contains ref then -decimal else decimal

/-- Date field names in order of preference (`PhotoOffloader.DATE_FIELDS`). -/
def DATE_FIELDS : List String := ["DateTimeOriginal", "DateTimeDigitized", "DateTime"]

/-- Attempted parse of one EXIF date field value: a non-string raises
`TypeError` inside `strptime`, an unparseable string raises `ValueError`;
both are caught by the caller and yield `none`. -/
def tryParseDateField (v : TagVal) : Option DateTime :=
  match v with
  | .str s => strptimeExif s
  | _ => none

/-- Loop body of `PhotoOffloader._parse_exif_date`: try the fields of
`DATE_FIELDS` in order, skipping absent fields and fields whose value fails
to parse. -/
def parseDateLoop (exif_data : TagDict) : List String → Option DateTime
  | [] => none
  | f :: fs =>
    match exif_data.get? f with
    | some v =>
      match tryParseDateField v with
      | some dt => some dt
      | none => parseDateLoop exif_data fs
    | none => parseDateLoop exif_data fs

/-- Model of `PhotoOffloader._parse_exif_date`. -/
def _parse_exif_date (exif_data : TagDict) : Option DateTime :=
  parseDateLoop exif_data DATE_FIELDS

end PhotoOffloader

/-- Claim statement helper: the parse of a field when it is present and its
value parses under the fixed EXIF pattern; `none` when the field is absent
or its value does not parse. -/
def fieldParse (d : TagDict) (f : String) : Option DateTime :=
  (d.get? f).bind PhotoOffloader.tryParseDateField

namespace VideoOffloader

/-- Conversion of degrees, minutes, seconds to decimal degrees
(`VideoOffloader._dms_to_decimal`, textually identical to the photo
variant). -/
def _dms_to_decimal (dms : ℚ × ℚ × ℚ) (ref : String) : ℚ :=
  let degrees := dms.1
  let minutes := dms.2.1 / 60
  let seconds := dms.2.2 / 3600
  let decimal := degrees + minutes + seconds
  if NEGATIVE_DIRECTIONS.contains ref then -decimal else decimal

end VideoOffloader

/-! ### Video date parsing (`VideoOffloader._parse_date`) -/

/-- Model of `TZ_OFFSET_PATTERN.search` + `.sub('', s)`: the pattern
`[+-]\d{2}:\d{2}$` is six characters anchored at the end of the string
(Python `$` also matches just before one trailing newline), so a
successful search strips exactly those six characters. -/
def tzStrip (s : String) : String :=
  match s.data.reverse with
  | d1 :: d2 :: c :: d3 :: d4 :: sgn :: _ =>
    if d1.isDigit ∧ d2.isDigit ∧ c = ':' ∧ d3.isDigit ∧ d4.isDigit ∧
        (sgn = '+' ∨ sgn = '-') then
      String.mk (s.data.take (s.data.length - 6))
    else
      match s.data.reverse with
      | nl :: e1 :: e2 :: c2 :: e3 :: e4 :: sgn2 :: _ =>
        if nl = '\n' ∧ e1.isDigit ∧ e2.isDigit ∧ c2 = ':' ∧ e3.isDigit ∧ e4.isDigit ∧
            (sgn2 = '+' ∨ sgn2 = '-') then
          String.mk (s.data.take (s.data.length - 7) ++ ['\n'])
        else s
      | _ => s
  | _ => s

/-- Model of `datetime.strptime(s, "%Y-%m-%d %H:%M:%S")`. -/
def strptimeIsoSpace (s : String) : Option DateTime :=
  num4 s.data fun y r1 =>
  litCh '-' r1 fun r2 =>
  num2or1 monthOk2 monthOk1 r2 fun mo r3 =>
  litCh '-' r3 fun r4 =>
  num2or1 dayOk2 dayOk1 r4 fun d r5 =>
  ws1 r5 fun r6 =>
  num2or1 hourOk2 anyDigit1 r6 fun h r7 =>
  litCh ':' r7 fun r8 =>
  num2or1 minuteOk2 anyDigit1 r8 fun mi r9 =>
  litCh ':' r9 fun r10 =>
  num2or1 secondOk2 anyDigit1 r10 fun sec r11 =>
  atEnd y mo d h mi sec 0 r11

/-- Model of `datetime.strptime(s, "%Y-%m-%dT%H:%M:%S")`. -/
def strptimeIsoT (s : String) : Option DateTime :=
  num4 s.data fun y r1 =>
  litCh '-' r1 fun r2 =>
  num2or1 monthOk2 monthOk1 r2 fun mo r3 =>
  litCh '-' r3 fun r4 =>
  num2or1 dayOk2 dayOk1 r4 fun d r5 =>
  litCh 'T' r5 fun r6 =>
  num2or1 hourOk2 anyDigit1 r6 fun h r7 =>
  litCh ':' r7 fun r8 =>
  num2or1 minuteOk2 anyDigit1 r8 fun mi r9 =>
  litCh ':' r9 fun r10 =>
  num2or1 secondOk2 anyDigit1 r10 fun sec r11 =>
  atEnd y mo d h mi sec 0 r11

/-- Exactly `n` ASCII digits from the front of the input. -/
def takeExactDigits (n : Nat) (cs : List Char) : Option (List Char × List Char) :=
  let taken := cs.take n
  if taken.length = n ∧ taken.all Char.isDigit then some (taken, cs.drop n) else none

/-- Directive `%f`: `[0-9]{1,6}`, greedy with backtracking; the captured
digits are right-padded to microseconds. -/
def microFrac {α : Type} (n : Nat) (cs : List Char) (k : Nat → List Char → Option α) :
    Option α :=
  match n with
  | 0 => none
  | Nat.succ m =>
    (match takeExactDigits (Nat.succ m) cs with
     | some (ds, rest) => k (digitsToNat ds * 10 ^ (6 - Nat.succ m)) rest
     | none => none).orElse fun _ => microFrac m cs k

/-- Model of `datetime.strptime(s, "%Y-%m-%dT%H:%M:%S.%f")`. -/
def strptimeIsoTFrac (s : String) : Option DateTime :=
  num4 s.data fun y r1 =>
  litCh '-' r1 fun r2 =>
  num2or1 monthOk2 monthOk1 r2 fun mo r3 =>
  litCh '-' r3 fun r4 =>
  num2or1 dayOk2 dayOk1 r4 fun d r5 =>
  litCh 'T' r5 fun r6 =>
  num2or1 hourOk2 anyDigit1 r6 fun h r7 =>
  litCh ':' r7 fun r8 =>
  num2or1 minuteOk2 anyDigit1 r8 fun mi r9 =>
  litCh ':' r9 fun r10 =>
  num2or1 secondOk2 anyDigit1 r10 fun sec r11 =>
  litCh '.' r11 fun r12 =>
  microFrac 6 r12 fun μ r13 =>
  atEnd y mo d h mi sec μ r13

/-- Model of `datetime.strptime(s, "%Y-%m-%d")`. -/
def strptimeYmd (s : String) : Option DateTime :=
  num4 s.data fun y r1 =>
  litCh '-' r1 fun r2 =>
  num2or1 monthOk2 monthOk1 r2 fun mo r3 =>
  litCh '-' r3 fun r4 =>
  num2or1 dayOk2 dayOk1 r4 fun d r5 =>
  atEnd y mo d 0 0 0 0 r5

/-- Model of `s.replace(':', '-', n)`: replace at most `n` colons. -/
def replaceColons : List Char → Nat → List Char
  | [], _ => []
  | c :: cs, 0 => c :: cs
  | c :: cs, Nat.succ k =>
    if c = ':' then '-' :: replaceColons cs k else c :: replaceColons cs (Nat.succ k)

namespace VideoOffloader

/-- Date field names in order of preference (`VideoOffloader.DATE_FIELDS`). -/
def DATE_FIELDS : List String :=
  ["QuickTime:CreationDate", "QuickTime:CreateDate", "QuickTime:MediaCreateDate",
   "Keys:CreationDate", "Keys:CreateDate", "CreateDate", "CreationDate",
   "DateTimeOriginal", "MediaCreateDate"]

/-- Per-field body of `VideoOffloader._parse_date`: strip a trailing timezone
offset, try the four formats of `DATE_FORMATS` in order, then fall back to
extracting a date-only substring (`MIN_DATE_STRING_LENGTH = 10`,
`COLON_REPLACEMENT_COUNT = 2`). -/
def parseDateValue (date_str : String) : Option DateTime :=
  let date_str_no_tz := tzStrip date_str
  match ((strptimeExif date_str_no_tz).orElse fun _ =>
          (strptimeIsoSpace date_str_no_tz).orElse fun _ =>
            (strptimeIsoT date_str_no_tz).orElse fun _ =>
              strptimeIsoTFrac date_str_no_tz) with
  | some dt => some dt
  | none =>
    let cs := date_str_no_tz.data
    let date_part : List Char :=
      if cs.contains 'T' then cs.takeWhile (fun c => c ≠ 'T')
      else if cs.contains ' ' then cs.takeWhile (fun c => c ≠ ' ')
      else if cs.length ≥ 10 then cs.take 10 else cs
    match (if date_part.contains ':' ∧ date_part.length ≥ 10 then
            strptimeYmd (String.mk ((replaceColons date_part 2).take 10))
          else none) with
    | some dt => some dt
    | none =>
      if date_part.length ≥ 10 then strptimeYmd (String.mk (date_part.take 10))
      else none

/-- Field-preference loop of `VideoOffloader._parse_date`; a value whose
`str()` raises and a value that fails every parse attempt both move on to
the next candidate field. -/
def parseDateFields (metadata : TagDict) : List String → Option DateTime
  | [] => none
  | f :: fs =>
    match metadata.get? f with
    | some v =>
      match v.pyStr with
      | some s =>
        match parseDateValue s with
        | some dt => some dt
        | none => parseDateFields metadata fs
      | none => parseDateFields metadata fs
    | none => parseDateFields metadata fs

/-- Model of `VideoOffloader._parse_date`. -/
def _parse_date (metadata : TagDict) : Option DateTime :=
  parseDateFields metadata DATE_FIELDS

end VideoOffloader


/-! ### Video location parsing (`VideoOffloader._parse_location`) -/

/-- Accumulator pass underlying the model of `str.split()`: `acc` is the
current token, reversed. -/
def pySplitAux : List Char → List Char → List String
  | [], acc => if acc = [] then [] else [String.mk acc.reverse]
  | c :: cs, acc =>
    if isPySpace c then
      if acc = [] then pySplitAux cs [] else String.mk acc.reverse :: pySplitAux cs []
    else pySplitAux cs (c :: acc)

/-- Model of `str.split()` with no separator: split on runs of whitespace,
discarding leading/trailing whitespace and empty tokens. -/
def pySplitWS (cs : List Char) : List String := pySplitAux cs []

/-- Model of the Python builtin `float(s)` on a string, `none` for the
`ValueError` it raises on non-numeric input.  Two simplifications: the
special literals `inf`/`infinity`/`nan` (not representable in `ℚ`) and
digit-separator underscores are treated as failures; no claim depends on
either. -/
def pyFloat (s : String) : Option ℚ :=
  let cs := ((s.data.dropWhile isPySpace).reverse.dropWhile isPySpace).reverse
  let signAndRest : Bool × List Char :=
    match cs with
    | c :: rest =>
      if c = '-' then (true, rest) else if c = '+' then (false, rest) else (false, cs)
    | [] => (false, [])
  let neg := signAndRest.1
  let cs1 := signAndRest.2
  let intPart := cs1.takeWhile Char.isDigit
  let rest1 := cs1.dropWhile Char.isDigit
  let fracAndRest : List Char × List Char :=
    match rest1 with
    | c :: r =>
      if c = '.' then (r.takeWhile Char.isDigit, r.dropWhile Char.isDigit) else ([], rest1)
    | [] => ([], [])
  let fracPart := fracAndRest.1
  let rest2 := fracAndRest.2
  if intPart = [] ∧ fracPart = [] then none
  else
    let expOpt : Option Int :=
      match rest2 with
      | [] => some 0
      | e :: r =>
        if e = 'e' ∨ e = 'E' then
          let esignAndRest : Bool × List Char :=
            match r with
            | c :: rr =>
              if c = '-' then (true, rr) else if c = '+' then (false, rr) else (false, r)
            | [] => (false, [])
          let eds := esignAndRest.2.takeWhile Char.isDigit
          let r3 := esignAndRest.2.dropWhile Char.isDigit
          if eds ≠ [] ∧ r3 = [] then
            some (if esignAndRest.1 then -(digitsToNat eds : Int) else (digitsToNat eds : Int))
          else none
        else none
    match expOpt with
    | none => none
    | some e =>
      let mant : ℚ := (digitsToNat (intPart ++ fracPart) : ℚ) / (10 : ℚ) ^ fracPart.length
      let value := mant * (10 : ℚ) ^ e
      some (if neg then -value else value)

/-! The `DMS_PATTERN` regex `(\d+)\s+deg\s+(\d+)\s*'?\s*([\d.]+)\s*\"?` is
modelled as a backtracking matcher: each `+`/`*` item is tried greedily
(longest split first) with backtracking into the rest of the pattern, and
`re.match` anchors at the start only, so trailing input is ignored. -/

/-- Splits for a `+`-repeated character class, longest first. -/
def plusSplits (p : Char → Bool) (cs : List Char) : List (List Char × List Char) :=
  let run := cs.takeWhile p
  (List.range run.length).map fun i =>
    (run.take (run.length - i), cs.drop (run.length - i))

/-- Splits for a `*`-repeated character class, longest first (including the
empty split). -/
def starSplits (p : Char → Bool) (cs : List Char) : List (List Char × List Char) :=
  let run := cs.takeWhile p
  (List.range (run.length + 1)).map fun i =>
    (run.take (run.length - i), cs.drop (run.length - i))

/-- Splits for an optional character, consuming it first (greedy `?`). -/
def optCharSplits (c : Char) (cs : List Char) : List (List Char) :=
  match cs with
  | d :: rest => if d = c then [rest, cs] else [cs]
  | [] => [[]]

/-- Literal substring item of the pattern. -/
def litStr (lit cs : List Char) : Option (List Char) :=
  if cs.take lit.length = lit then some (cs.drop lit.length) else none

def isDigitDot (c : Char) : Bool := c.isDigit ∨ c = '.'

/-- Model of `DMS_PATTERN.match(s)`, returning the three captured groups:
degrees and minutes as the parsed digit groups, seconds as the raw
`[\d.]+` capture (converted by the caller with `float`). -/
def dmsPatternMatch (s : String) : Option (Nat × Nat × String) :=
  (plusSplits Char.isDigit s.data).findSome? fun g1 =>
    (plusSplits isPySpace g1.2).findSome? fun w1 =>
      match litStr ['d', 'e', 'g'] w1.2 with
      | none => none
      | some r2 =>
        (plusSplits isPySpace r2).findSome? fun w2 =>
          (plusSplits Char.isDigit w2.2).findSome? fun g2 =>
            (starSplits isPySpace g2.2).findSome? fun w3 =>
              (optCharSplits '\'' w3.2).findSome? fun r4 =>
                (starSplits isPySpace r4).findSome? fun w4 =>
                  (plusSplits isDigitDot w4.2).findSome? fun g3 =>
                    some (digitsToNat g1.1, digitsToNat g2.1, String.mk g3.1)

namespace VideoOffloader

/-- GPS coordinate tag names (`VideoOffloader.GPS_*`). -/
def GPS_COORDINATES_TAGS : List String := ["QuickTime:GPSCoordinates", "Keys:GPSCoordinates"]

def GPS_LATITUDE_TAGS : List String := ["GPSLatitude", "GPS:GPSLatitude"]

def GPS_LONGITUDE_TAGS : List String := ["GPSLongitude", "GPS:GPSLongitude"]

def GPS_LATITUDE_REF_TAG : String := "GPSLatitudeRef"

def GPS_LONGITUDE_REF_TAG : String := "GPSLongitudeRef"

/-- Outcome of the combined-coordinate loop of `_parse_location`. -/
inductive CombinedOutcome where
  | found (lat lon : ℚ)
  | raised
  | fallthrough
deriving DecidableEq

/-- Loop over `GPS_COORDINATES_TAGS`: a present tag is converted with
`str()` (a raising conversion escapes to the outermost handler and the
whole parse returns `none`), split on whitespace, and its first two tokens
parsed as floats; fewer than two tokens or a failing `float()` falls
through to the next tag. -/
def tryCombinedTags (metadata : TagDict) : List String → CombinedOutcome
  | [] => .fallthrough
  | t :: ts =>
    match metadata.get? t with
    | none => tryCombinedTags metadata ts
    | some v =>
      match v.pyStr with
      | none => .raised
      | some coords_str =>
        match pySplitWS coords_str.data with
        | p0 :: p1 :: _ =>
          match pyFloat p0, pyFloat p1 with
          | some lat, some lon => .found lat lon
          | _, _ => tryCombinedTags metadata ts
        | _ => tryCombinedTags metadata ts

/-- Hemisphere reference used by `_parse_location`: the `in
NEGATIVE_DIRECTIONS` membership test compares with `==`, and no non-string
value equals the string `"S"` or `"W"`, so a non-string reference behaves
exactly like a string that is neither; `intV` is rendered, a raising value
is replaced by the empty string. -/
def refString (v : Option TagVal) (dflt : String) : String :=
  match v with
  | none => dflt
  | some (.str s) => s
  | some (.intV n) => toString n
  | some .bad => ""

/-- Separate `GPSLatitude`/`GPSLongitude` branch of `_parse_location`:
guarded on both tag families being present, DMS pattern parse with decimal
fallback, all errors collapsing to `none`. -/
def separateTagsBranch (metadata : TagDict) : Option (ℚ × ℚ) :=
  if (GPS_LATITUDE_TAGS.any fun t => (metadata.get? t).isSome) ∧
      (GPS_LONGITUDE_TAGS.any fun t => (metadata.get? t).isSome) then
    match GPS_LATITUDE_TAGS.findSome? (fun t => metadata.get? t),
        GPS_LONGITUDE_TAGS.findSome? (fun t => metadata.get? t) with
    | some lv, some wv =>
      match lv.pyStr, wv.pyStr with
      | some lat_str, some lon_str =>
        let lat_ref := refString (metadata.get? GPS_LATITUDE_REF_TAG) DEFAULT_LATITUDE_REF
        let lon_ref := refString (metadata.get? GPS_LONGITUDE_REF_TAG) DEFAULT_LONGITUDE_REF
        match dmsPatternMatch lat_str, dmsPatternMatch lon_str with
        | some (d1, m1, s1), some (d2, m2, s2) =>
          match pyFloat s1, pyFloat s2 with
          | some sec1, some sec2 =>
            some (_dms_to_decimal ((d1 : ℚ), (m1 : ℚ), sec1) lat_ref,
                  _dms_to_decimal ((d2 : ℚ), (m2 : ℚ), sec2) lon_ref)
          | _, _ => none
        | _, _ =>
          match pyFloat lat_str, pyFloat lon_str with
          | some lat, some lon => some (lat, lon)
          | _, _ => none
      | _, _ => none
    | _, _ => none
  else none

/-- Model of `VideoOffloader._parse_location`. -/
def _parse_location (metadata : TagDict) : Option (ℚ × ℚ) :=
  match tryCombinedTags metadata GPS_COORDINATES_TAGS with
  | .found lat lon => some (lat, lon)
  | .raised => none
  | .fallthrough => separateTagsBranch metadata

end VideoOffloader


/-! ### Camera info and per-file extraction -/

/-- Conversion step shared by the camera-info parsers: a present value is
passed through `str()`, whose failure is not caught locally and escapes to
the extractor's top-level handler (`none`); an absent value stays absent. -/
def valStr? (v : Option TagVal) : Option (Option String) :=
  match v with
  | none => some none
  | some w =>
    match w.pyStr with
    | some s => some (some s)
    | none => none

namespace PhotoOffloader

/-- Camera info tag names (`PhotoOffloader.CAMERA_*_TAG`). -/
def CAMERA_MAKE_TAG : String := "Make"

def CAMERA_MODEL_TAG : String := "Model"

def CAMERA_SOFTWARE_TAG : String := "Software"

/-- Model of `PhotoOffloader._parse_exif_camera_info`; the outer `none`
models an escaping `str()` failure. -/
def _parse_exif_camera_info (exif_data : TagDict) :
    Option (Option String × Option String × Option String) :=
  match valStr? (exif_data.get? CAMERA_MAKE_TAG), valStr? (exif_data.get? CAMERA_MODEL_TAG),
      valStr? (exif_data.get? CAMERA_SOFTWARE_TAG) with
  | some mk, some md, some sw => some (mk, md, sw)
  | _, _, _ => none

/-- One GPS DMS value from the GPS IFD: `ok` holds the three components
(already coerced with `float`); `bad` models a triple whose indexing or
`float()` conversion raises. -/
inductive DmsTriple where
  | ok (d m s : ℚ)
  | bad
deriving DecidableEq

/-- Contents of the GPS IFD (tag ids 1–4).  A reference value that is not a
string can never equal `"S"`/`"W"` under `==`, so it is modelled by any
string that is neither. -/
structure GpsInfo where
  latRef : Option String := none
  lat : Option DmsTriple := none
  lonRef : Option String := none
  lon : Option DmsTriple := none
deriving DecidableEq

/-- GPS data as visible to `_parse_exif_location`: the `GPSInfo` tag can be
absent, present but raising on `get_ifd` access (`err`), or readable. -/
inductive GpsResult where
  | absent
  | err
  | info (i : GpsInfo)
deriving DecidableEq

/-- Model of `PhotoOffloader._parse_exif_location`: absent tag and any
structural error map to `none`; otherwise both DMS triples are converted
with the shared `_dms_to_decimal` using `N`/`E` as default references. -/
def _parse_exif_location (gps : GpsResult) : Option (ℚ × ℚ) :=
  match gps with
  | .absent => none
  | .err => none
  | .info i =>
    let lat_ref := i.latRef.getD DEFAULT_LATITUDE_REF
    let lon_ref := i.lonRef.getD DEFAULT_LONGITUDE_REF
    match i.lat, i.lon with
    | some lat_data, some lon_data =>
      match lat_data, lon_data with
      | .ok d1 m1 s1, .ok d2 m2 s2 =>
        some (_dms_to_decimal (d1, m1, s1) lat_ref, _dms_to_decimal (d2, m2, s2) lon_ref)
      | _, _ => none
    | _, _ => none

/-- Result of `Image.open(...).getexif()`: the flattened tag dictionary and
the GPS IFD reachable from it (the `GPSInfo` entry, when present, also
appears in `tags`, so an exif with GPS data is non-empty). -/
structure ExifData where
  tags : TagDict
  gps : GpsResult
deriving DecidableEq

/-- Model of `PhotoOffloader._extract_metadata`: `opened` is the outcome of
`Image.open` + `getexif` (`error` models any exception while reading the
file), in which case every optional field stays `None`.  The locals are
assigned in source order — date, location, then camera info — so an
exception escaping the camera-info `str()` conversions is caught by the
top-level handler with the already-assigned date and location kept and
only the camera fields still `None`. -/
def _extract_metadata (file_path : String) (opened : Except Unit ExifData) : MediaMetadata :=
  match opened with
  | .error _ => { path := file_path }
  | .ok e =>
    if e.tags.nonempty then
      let date_taken := _parse_exif_date e.tags
      let location := _parse_exif_location e.gps
      match _parse_exif_camera_info e.tags with
      | some (mk, md, sw) =>
        { path := file_path, date_taken := date_taken, location := location,
          camera_make := mk, camera_model := md, software := sw }
      | none => { path := file_path, date_taken := date_taken, location := location }
    else { path := file_path }

end PhotoOffloader

namespace VideoOffloader

/-- Camera info tag name lists (`VideoOffloader.CAMERA_*_TAGS`). -/
def CAMERA_MAKE_TAGS : List String := ["Make", "QuickTime:Make", "Keys:Make"]

def CAMERA_MODEL_TAGS : List String := ["Model", "QuickTime:Model", "Keys:Model"]

def CAMERA_SOFTWARE_TAGS : List String :=
  ["Software", "QuickTime:Software", "Keys:Software", "CreatorTool"]

/-- First present tag of `tags` converted with `str()`; `none` models an
escaping `str()` failure, `some none` an attribute left absent. -/
def firstTagStr (metadata : TagDict) (tags : List String) : Option (Option String) :=
  match tags.findSome? (fun t => metadata.get? t) with
  | none => some none
  | some v =>
    match v.pyStr with
    | some s => some (some s)
    | none => none

/-- Model of `VideoOffloader._parse_camera_info`. -/
def _parse_camera_info (metadata : TagDict) :
    Option (Option String × Option String × Option String) :=
  match firstTagStr metadata CAMERA_MAKE_TAGS, firstTagStr metadata CAMERA_MODEL_TAGS,
      firstTagStr metadata CAMERA_SOFTWARE_TAGS with
  | some mk, some md, some sw => some (mk, md, sw)
  | _, _, _ => none

/-- Model of `VideoOffloader._extract_metadata`: `probeEmbedded` is the
exiftool invocation with the `-ee` flag, `probePlain` the retry without it;
each returns a list of per-file tag dictionaries or raises.  Both failing,
or an empty result, leaves an empty tag set and a record with only the
path.  The locals are assigned in source order — date, location, then
camera info — so an exception escaping `_parse_camera_info`'s `str()`
conversions is caught by the top-level handler with the already-assigned
date and location kept and only the camera fields still `None`. -/
def _extract_metadata (file_path : String)
    (probeEmbedded probePlain : Except Unit (List TagDict)) : MediaMetadata :=
  let metadata : TagDict :=
    match probeEmbedded with
    | .ok (m :: _) => m
    | .ok [] => []
    | .error _ =>
      match probePlain with
      | .ok (m :: _) => m
      | .ok [] => []
      | .error _ => []
  if metadata.nonempty then
    let date_taken := _parse_date metadata
    let location := _parse_location metadata
    match _parse_camera_info metadata with
    | some (mk, md, sw) =>
      { path := file_path, date_taken := date_taken, location := location,
        camera_make := mk, camera_model := md, software := sw }
    | none => { path := file_path, date_taken := date_taken, location := location }
  else { path := file_path }

/-- Result of `Path.stat()` as far as the file-date fallback needs it: the
platform birth time when available and the modification time, both already
converted to naive datetimes. -/
structure FileStat where
  birthtime : Option DateTime
  mtime : DateTime
deriving DecidableEq

/-- Modelled from the spec: `VideoOffloader._get_file_creation_date` is not
present in `src/offload/video_offloader.py` (only
`src/tests/test_video_offloader.py` exercises it); §4.5 of the spec: prefer
a true birth time, fall back to the modification time if unavailable, and
any OS-level `stat` failure (or an invalid timestamp) yields absent,
modelled by `st = none`. -/
def _get_file_creation_date (st : Option FileStat) : Option DateTime :=
  match st with
  | none => none
  | some s =>
    match s.birthtime with
    | some b => some b
    | none => some s.mtime

/-- Modelled from the spec: the `use_file_date` parameter of
`_extract_metadata` is not present in `src/offload/video_offloader.py`
(only `src/tests/test_video_offloader.py` exercises it); §4.5/§4.8 of the
spec: when metadata parsing yields no date and the caller opts in,
substitute the file's filesystem creation timestamp; the fallback never
overrides a metadata-derived date. -/
def extractMetadataWithFileDate (file_path : String)
    (probeEmbedded probePlain : Except Unit (List TagDict)) (use_file_date : Bool)
    (st : Option FileStat) : MediaMetadata :=
  let base := _extract_metadata file_path probeEmbedded probePlain
  if base.date_taken = none ∧ use_file_date then
    { base with date_taken := _get_file_creation_date st }
  else base

end VideoOffloader


/-- Claim-side predicate for C6: a combined-coordinate tag value that
contributes nothing — its `str()` raises, it has fewer than two
whitespace-separated tokens, or one of the first two tokens fails
`float()`. -/
def combinedValueFails (v : TagVal) : Bool :=
  match v.pyStr with
  | none => true
  | some s =>
    match pySplitWS s.data with
    | p0 :: p1 :: _ => (pyFloat p0).isNone || (pyFloat p1).isNone
    | _ => true

/-- Concrete metadata for the C6 counterexample: a present combined tag with
non-numeric tokens together with separate decimal latitude/longitude tags. -/
def locCexMd : TagDict :=
  [("QuickTime:GPSCoordinates", .str "abc def"),
   ("GPSLatitude", .str "37"), ("GPSLongitude", .str "-122")]


/-! ### Bucketing (`bucket_photos` / `bucket_videos`) -/

/-- Model of the f-string conversion `{n:02d}` for a natural number: pad
with a leading zero below 10 (numbers of three or more digits print in
full, exactly like Python). -/
def fmt02 (n : Nat) : String :=
  if n < 10 then "0" ++ toString n else toString n

namespace PhotoOffloader

/-- Model of `PhotoOffloader._get_bucket_key`.  The source raises
`ValueError` on an unsupported selector; every selector of the `GroupBy`
enum is supported, so the model is total.  Date keys interpolate
`photo.date_taken.year` unpadded and month/day with `{:02d}`, joined by
`YEAR_MONTH_SEPARATOR`. -/
def _get_bucket_key (photo : MediaMetadata) (group_by : GroupBy) : String :=
  match group_by with
  | .software =>
    match photo.software with
    | some s => s
    | none => UNKNOWN_BUCKET_KEY
  | .camera_make =>
    match photo.camera_make with
    | some s => s
    | none => UNKNOWN_BUCKET_KEY
  | .camera_model =>
    match photo.camera_model with
    | some s => s
    | none => UNKNOWN_BUCKET_KEY
  | .year =>
    match photo.date_taken with
    | some d => toString d.year
    | none => UNKNOWN_BUCKET_KEY
  | .year_month =>
    match photo.date_taken with
    | some d => toString d.year ++ YEAR_MONTH_SEPARATOR ++ fmt02 d.month
    | none => UNKNOWN_BUCKET_KEY
  | .year_month_day =>
    match photo.date_taken with
    | some d =>
      toString d.year ++ YEAR_MONTH_SEPARATOR ++ fmt02 d.month ++
        YEAR_MONTH_SEPARATOR ++ fmt02 d.day
    | none => UNKNOWN_BUCKET_KEY

end PhotoOffloader

/-- Model of `dict.setdefault(key, []).append(photo)` on an
insertion-ordered dictionary represented as an association list: append to
the existing entry, or add a new entry at the end. -/
def addToBucket (buckets : List (String × List MediaMetadata)) (key : String)
    (p : MediaMetadata) : List (String × List MediaMetadata) :=
  match buckets with
  | [] => [(key, [p])]
  | (k, l) :: rest =>
    if k = key then (k, l ++ [p]) :: rest else (k, l) :: addToBucket rest key p

namespace PhotoOffloader

/-- Model of `PhotoOffloader.bucket_photos`. -/
def bucket_photos (photos : List MediaMetadata) (group_by : GroupBy) :
    List (String × List MediaMetadata) :=
  photos.foldl (fun buckets photo => addToBucket buckets (_get_bucket_key photo group_by) photo) []

end PhotoOffloader

namespace VideoOffloader

/-- Model of `VideoOffloader._get_bucket_key` (textually identical to the
photo variant). -/
def _get_bucket_key (video : MediaMetadata) (group_by : GroupBy) : String :=
  match group_by with
  | .software =>
    match video.software with
    | some s => s
    | none => UNKNOWN_BUCKET_KEY
  | .camera_make =>
    match video.camera_make with
    | some s => s
    | none => UNKNOWN_BUCKET_KEY
  | .camera_model =>
    match video.camera_model with
    | some s => s
    | none => UNKNOWN_BUCKET_KEY
  | .year =>
    match video.date_taken with
    | some d => toString d.year
    | none => UNKNOWN_BUCKET_KEY
  | .year_month =>
    match video.date_taken with
    | some d => toString d.year ++ YEAR_MONTH_SEPARATOR ++ fmt02 d.month
    | none => UNKNOWN_BUCKET_KEY
  | .year_month_day =>
    match video.date_taken with
    | some d =>
      toString d.year ++ YEAR_MONTH_SEPARATOR ++ fmt02 d.month ++
        YEAR_MONTH_SEPARATOR ++ fmt02 d.day
    | none => UNKNOWN_BUCKET_KEY

/-- Model of `VideoOffloader.bucket_videos` (textually identical to the
photo variant). -/
def bucket_videos (videos : List MediaMetadata) (group_by : GroupBy) :
    List (String × List MediaMetadata) :=
  videos.foldl (fun buckets video => addToBucket buckets (_get_bucket_key video group_by) video) []

end VideoOffloader

/-- Record with a year far below 1000, reachable from the photo pipeline
(EXIF dates with a zero-padded four-digit year such as `"0005:01:02
03:04:05"` parse to year 5), used to refute the year-padding part of C5. -/
def earlyYearPhoto : MediaMetadata :=
  { path := "a.jpg", date_taken := some ⟨5, 1, 2, 3, 4, 5, 0⟩ }


/-- Records for the bucketing/sorting witnesses: one dated, one dateless. -/
def bucketWitnessA : MediaMetadata :=
  { path := "a.jpg", date_taken := some ⟨2023, 5, 15, 0, 0, 0, 0⟩ }

def bucketWitnessB : MediaMetadata := { path := "b.jpg" }


/-! ### Sorting (`sort_photos` / `sort_videos`)

`_get_sort_key` returns a Python tuple whose elements are integers, strings
or datetimes; `sorted` orders records by the `<` of those tuples
(lexicographic, with strings compared by code point and datetimes
field-lexicographically).  Python's stable sort is modelled by the stable
`List.mergeSort` with the complementary `≤` relation. -/

/-- One element of a Python sort-key tuple. -/
inductive PyVal where
  | int (n : Int)
  | str (s : String)
  | dt (d : DateTime)
deriving DecidableEq, Repr

/-- Python `datetime.max` (microseconds included). -/
def datetimeMax : DateTime := ⟨9999, 12, 31, 23, 59, 59, 999999⟩

/-- Lexicographic encoding of a datetime, its comparison order in Python. -/
def toLexDT (d : DateTime) :
    Lex (Nat × Lex (Nat × Lex (Nat × Lex (Nat × Lex (Nat × Lex (Nat × Nat)))))) :=
  toLex (d.year, toLex (d.month, toLex (d.day, toLex (d.hour,
    toLex (d.minute, toLex (d.second, d.microsecond))))))

/-- Python `datetime <`. -/
def dtLt (a b : DateTime) : Bool := decide (toLexDT a < toLexDT b)

/-- Python string `<`: lexicographic on code points. -/
def strLtList : List Char → List Char → Bool
  | [], [] => false
  | [], _ :: _ => true
  | _ :: _, [] => false
  | a :: as, b :: bs => if a = b then strLtList as bs else decide (a.toNat < b.toNat)

/-- Constructor rank, used only to make the comparison total: Python raises
`TypeError` on cross-type comparisons, and within one `group_by` the tuples
compared always agree in element types position by position, so this
tie-break is never exercised by `sorted`. -/
def pyValRank : PyVal → Nat
  | .int _ => 0
  | .str _ => 1
  | .dt _ => 2

/-- Python `<` on one sort-key tuple element. -/
def pyValLt (a b : PyVal) : Bool :=
  match a, b with
  | .int m, .int n => decide (m < n)
  | .str s, .str t => strLtList s.data t.data
  | .dt d, .dt e => dtLt d e
  | a, b => decide (pyValRank a < pyValRank b)

/-- Python `<` on sort-key tuples (lexicographic). -/
def pyListLt : List PyVal → List PyVal → Bool
  | _, [] => false
  | [], _ :: _ => true
  | a :: as, b :: bs =>
    if pyValLt a b then true else if pyValLt b a then false else pyListLt as bs

namespace PhotoOffloader

/-- Model of `PhotoOffloader._get_sort_key`: a tuple sorting records with a
present attribute (tag 0) before records with an absent one (tag 1). -/
def _get_sort_key (photo : MediaMetadata) (group_by : GroupBy) : List PyVal :=
  match group_by with
  | .software =>
    match photo.software with
    | some s => [.int 0, .str s]
    | none => [.int 1, .str UNKNOWN_BUCKET_KEY]
  | .camera_make =>
    match photo.camera_make with
    | some s => [.int 0, .str s]
    | none => [.int 1, .str UNKNOWN_BUCKET_KEY]
  | .camera_model =>
    match photo.camera_model with
    | some s => [.int 0, .str s]
    | none => [.int 1, .str UNKNOWN_BUCKET_KEY]
  | .year =>
    match photo.date_taken with
    | some d => [.int 0, .int d.year]
    | none => [.int 1, .dt datetimeMax]
  | .year_month =>
    match photo.date_taken with
    | some d => [.int 0, .int d.year, .int d.month]
    | none => [.int 1, .dt datetimeMax]
  | .year_month_day =>
    match photo.date_taken with
    | some d => [.int 0, .dt d]
    | none => [.int 1, .dt datetimeMax]

/-- Model of `PhotoOffloader.sort_photos`. -/
def sort_photos (photos : List MediaMetadata) (group_by : GroupBy) : List MediaMetadata :=
  photos.mergeSort fun a b =>
    ! pyListLt (_get_sort_key b group_by) (_get_sort_key a group_by)

end PhotoOffloader

namespace VideoOffloader

/-- Model of `VideoOffloader._get_sort_key` (textually identical to the
photo variant). -/
def _get_sort_key (video : MediaMetadata) (group_by : GroupBy) : List PyVal :=
  match group_by with
  | .software =>
    match video.software with
    | some s => [.int 0, .str s]
    | none => [.int 1, .str UNKNOWN_BUCKET_KEY]
  | .camera_make =>
    match video.camera_make with
    | some s => [.int 0, .str s]
    | none => [.int 1, .str UNKNOWN_BUCKET_KEY]
  | .camera_model =>
    match video.camera_model with
    | some s => [.int 0, .str s]
    | none => [.int 1, .str UNKNOWN_BUCKET_KEY]
  | .year =>
    match video.date_taken with
    | some d => [.int 0, .int d.year]
    | none => [.int 1, .dt datetimeMax]
  | .year_month =>
    match video.date_taken with
    | some d => [.int 0, .int d.year, .int d.month]
    | none => [.int 1, .dt datetimeMax]
  | .year_month_day =>
    match video.date_taken with
    | some d => [.int 0, .dt d]
    | none => [.int 1, .dt datetimeMax]

/-- Model of `VideoOffloader.sort_videos` (textually identical to the photo
variant). -/
def sort_videos (videos : List MediaMetadata) (group_by : GroupBy) : List MediaMetadata :=
  videos.mergeSort fun a b =>
    ! pyListLt (_get_sort_key b group_by) (_get_sort_key a group_by)

end VideoOffloader

/-- Claim-side predicate (C7): the grouping attribute is present. -/
def attrPresent (g : GroupBy) (p : MediaMetadata) : Bool :=
  match g with
  | .software => p.software.isSome
  | .camera_make => p.camera_make.isSome
  | .camera_model => p.camera_model.isSome
  | .year => p.date_taken.isSome
  | .year_month => p.date_taken.isSome
  | .year_month_day => p.date_taken.isSome

/-- Claim-side order (C7) between two records with present attributes:
lexical on the string attributes, chronological on the date-derived ones
(year, then year/month, then year/month/day). -/
def attrLe (g : GroupBy) (a b : MediaMetadata) : Bool :=
  match g with
  | .software => ! strLtList (b.software.getD "").data (a.software.getD "").data
  | .camera_make => ! strLtList (b.camera_make.getD "").data (a.camera_make.getD "").data
  | .camera_model => ! strLtList (b.camera_model.getD "").data (a.camera_model.getD "").data
  | .year =>
    decide ((a.date_taken.getD datetimeMax).year ≤ (b.date_taken.getD datetimeMax).year)
  | .year_month =>
    let da := a.date_taken.getD datetimeMax
    let db := b.date_taken.getD datetimeMax
    decide (da.year < db.year ∨ (da.year = db.year ∧ da.month ≤ db.month))
  | .year_month_day =>
    let da := a.date_taken.getD datetimeMax
    let db := b.date_taken.getD datetimeMax
    decide (da.year < db.year ∨ (da.year = db.year ∧
      (da.month < db.month ∨ (da.month = db.month ∧ da.day ≤ db.day))))


/-! ### Copying and archiving (`copy_photos` / `archive_photos` and video
variants)

The destination directory is modelled as the finite set of basenames of its
loose files.  `iterdir` order is irrelevant: the archive step only tests
each entry's suffix against the extension allow-list. -/

/-- Model of `pathlib.PurePath.suffix`: the substring from the last dot,
empty when there is no dot, the dot is the first character, or the dot is
the last character. -/
def pySuffix (name : String) : String :=
  let cs := name.data
  let n := cs.length
  match cs.reverse.findIdx? (fun c => c = '.') with
  | none => ""
  | some k =>
    let i := n - 1 - k
    if 0 < i ∧ i < n - 1 then String.mk (cs.drop i) else ""

/-- Model of `str.lower()` (ASCII). -/
def pyLower (s : String) : String := String.mk (s.data.map Char.toLower)

/-- Photo extension allow-list (`PhotoOffloader.PHOTO_EXTENSIONS`). -/
def PHOTO_EXTENSIONS : List String := [".jpg", ".jpeg", ".png", ".heic", ".heif"]

/-- Video extension allow-list (`VideoOffloader.VIDEO_EXTENSIONS`). -/
def VIDEO_EXTENSIONS : List String := [".mov", ".mp4"]

/-- The test `file_path.suffix.lower() in PHOTO_EXTENSIONS`. -/
def is_photo_file (name : String) : Bool := PHOTO_EXTENSIONS.contains (pyLower (pySuffix name))

/-- The test `file_path.suffix.lower() in VIDEO_EXTENSIONS`. -/
def is_video_file (name : String) : Bool := VIDEO_EXTENSIONS.contains (pyLower (pySuffix name))

namespace PhotoOffloader

def ARCHIVE_FILENAME : String := "photos.zip"

/-- Model of `PhotoOffloader.copy_photos` at the directory level: `photos`
are the basenames being copied in; `shutil.copy2` overwrites same-named
files, so the destination contents become the union. -/
def copy_photos (photos : List String) (dest : Finset String) : Finset String :=
  dest ∪ photos.toFinset

/-- Model of `PhotoOffloader.archive_photos` (success path), returning the
destination directory contents after the operation and the set of names
stored in the zip.  Steps: copy the photos in; creating
`ZipFile(zip_path, 'w')` materialises `photos.zip` in the directory; every
allow-listed file of the directory is added to the zip; a second listing
deletes every allow-listed file (`photos.zip` has a non-allow-listed
suffix and survives). -/
def archive_photos (photos : List String) (dest : Finset String) :
    Finset String × Finset String :=
  let afterCopy := copy_photos photos dest
  let withZip := insert ARCHIVE_FILENAME afterCopy
  let zipContents := withZip.filter (fun n => is_photo_file n = true)
  let afterDelete := withZip.filter (fun n => ¬ is_photo_file n = true)
  (afterDelete, zipContents)

end PhotoOffloader

namespace VideoOffloader

def ARCHIVE_FILENAME : String := "videos.zip"

/-- Model of `VideoOffloader.copy_videos` (textually identical to the photo
variant). -/
def copy_videos (videos : List String) (dest : Finset String) : Finset String :=
  dest ∪ videos.toFinset

/-- Model of `VideoOffloader.archive_videos` (textually identical to the
photo variant, with the video allow-list and archive name). -/
def archive_videos (videos : List String) (dest : Finset String) :
    Finset String × Finset String :=
  let afterCopy := copy_videos videos dest
  let withZip := insert ARCHIVE_FILENAME afterCopy
  let zipContents := withZip.filter (fun n => is_video_file n = true)
  let afterDelete := withZip.filter (fun n => ¬ is_video_file n = true)
  (afterDelete, zipContents)

end VideoOffloader


/-- Photo exif input whose date field parses but whose `Make` value's
`str()` raises inside `_parse_exif_camera_info`, where no local handler
catches it. -/
def camErrExifPhoto : PhotoOffloader.ExifData :=
  { tags := [("DateTimeOriginal", TagVal.str "2023:05:15 14:30:00"), ("Make", TagVal.bad)],
    gps := .absent }

/-- Photo exif input with an unparseable date value and a valid camera
make: the per-field date error is recovered inside `_parse_exif_date`,
leaving the camera fields populated. -/
def dateErrExifPhoto : PhotoOffloader.ExifData :=
  { tags := [("DateTimeOriginal", TagVal.str "not a date"), ("Make", TagVal.str "GoPro")],
    gps := .absent }

/-- Video tag dictionary whose creation-date field parses but whose `Make`
value's `str()` raises inside `_parse_camera_info`. -/
def camErrVideoMd : TagDict :=
  [("QuickTime:CreationDate", TagVal.str "2023:05:15 14:30:00"), ("Make", TagVal.bad)]


/-! ### Theorems and claim verdicts -/

/-- C2 sanity example: `DateTimeOriginal` wins over conflicting later fields. -/
example :
    PhotoOffloader._parse_exif_date
      [("DateTime", .str "2021:01:01 00:00:00"),
       ("DateTimeOriginal", .str "2023:05:15 14:30:00"),
       ("DateTimeDigitized", .str "2022:02:02 02:02:02")] =
      some ⟨2023, 5, 15, 14, 30, 0, 0⟩ := by decide

/-- C2 sanity example: a present but unparseable first field is skipped. -/
example :
    PhotoOffloader._parse_exif_date
      [("DateTimeOriginal", .str "not a date"),
       ("DateTime", .str "2021:01:01 00:00:00")] =
      some ⟨2021, 1, 1, 0, 0, 0, 0⟩ := by decide

/-- C2 sanity example: Python strptime validates the day of month. -/
example : strptimeExif "2023:02:30 01:02:03" = none := by decide

example : strptimeExif "0005:01:02 03:04:05" = some ⟨5, 1, 2, 3, 4, 5, 0⟩ := by decide

/-- Membership in the negative-direction list is exactly equality with one of
the two direction letters. -/
theorem negative_directions_contains (ref : String) :
    NEGATIVE_DIRECTIONS.contains ref = (decide (ref = "S") || decide (ref = "W")) := by
  simp [NEGATIVE_DIRECTIONS, List.contains_cons, beq_iff_eq]

/-- Unfolding of one step of the date-field preference loop. -/
theorem parseDateLoop_cons (d : TagDict) (f : String) (fs : List String) :
    PhotoOffloader.parseDateLoop d (f :: fs) =
      (fieldParse d f).orElse fun _ => PhotoOffloader.parseDateLoop d fs := by
  cases h : d.get? f with
  | some v =>
    cases h2 : PhotoOffloader.tryParseDateField v <;>
      simp [PhotoOffloader.parseDateLoop, fieldParse, Option.orElse, h, h2]
  | none => simp [PhotoOffloader.parseDateLoop, fieldParse, Option.orElse, h]

/-- C2: the photo date parser returns the parse of the first field, in the
order `DateTimeOriginal`, `DateTimeDigitized`, `DateTime`, that is present
and whose value parses under the fixed EXIF pattern; a present-but-unparseable
field is skipped in favour of the next candidate, and the result is `none`
when no field is present or all present fields fail to parse. -/
theorem parse_exif_date_first_parseable_field (d : TagDict) :
    PhotoOffloader._parse_exif_date d =
      ((fieldParse d "DateTimeOriginal").orElse fun _ =>
        (fieldParse d "DateTimeDigitized").orElse fun _ =>
          fieldParse d "DateTime") := by
  show PhotoOffloader.parseDateLoop d ["DateTimeOriginal", "DateTimeDigitized", "DateTime"] = _
  rw [parseDateLoop_cons, parseDateLoop_cons, parseDateLoop_cons]
  cases fieldParse d "DateTimeOriginal" <;>
    cases fieldParse d "DateTimeDigitized" <;>
      cases fieldParse d "DateTime" <;>
        simp [PhotoOffloader.parseDateLoop, Option.orElse]

/-- C4 counterexample: the claim quantifies over every DMS triple with
degrees ≥ 0 only, but `_dms_to_decimal` performs no validation, so a
negative minutes component makes the result negative even for reference
`N`: at the concrete input `(0, -60, 0)` with `ref = "N"` the degrees are
`0 ≥ 0` yet the returned decimal is `-1 < 0`. -/
theorem dms_to_decimal_sign_cex :
    PhotoOffloader._dms_to_decimal (0, -60, 0) "N" = -1 ∧
      (0 : ℚ) ≤ 0 ∧ ¬ (0 : ℚ) ≤ PhotoOffloader._dms_to_decimal (0, -60, 0) "N" := by
  have h : PhotoOffloader._dms_to_decimal (0, -60, 0) "N" = -1 := by
    show (if NEGATIVE_DIRECTIONS.contains "N" then -((0:ℚ) + -60 / 60 + 0 / 3600)
          else (0:ℚ) + -60 / 60 + 0 / 3600) = -1
    rw [if_neg (by decide)]
    norm_num
  refine ⟨h, le_refl 0, ?_⟩
  rw [h]
  norm_num

/-- C4 (amended: all three DMS components nonnegative, not only degrees):
for every DMS triple of nonnegative components, the decimal returned by
`_dms_to_decimal` is ≥ 0 for reference `N` or `E` and ≤ 0 for `S` or `W`,
and in either case its magnitude is `degrees + minutes/60 + seconds/3600`;
the video variant coincides with the photo variant. -/
theorem dms_to_decimal_sign_magnitude (d m s : ℚ) (ref : String)
    (hd : 0 ≤ d) (hm : 0 ≤ m) (hs : 0 ≤ s) :
    ((ref = "N" ∨ ref = "E") → 0 ≤ PhotoOffloader._dms_to_decimal (d, m, s) ref) ∧
    ((ref = "S" ∨ ref = "W") → PhotoOffloader._dms_to_decimal (d, m, s) ref ≤ 0) ∧
    |PhotoOffloader._dms_to_decimal (d, m, s) ref| = d + m / 60 + s / 3600 ∧
    VideoOffloader._dms_to_decimal (d, m, s) ref = PhotoOffloader._dms_to_decimal (d, m, s) ref := by
  have hpos : 0 ≤ d + m / 60 + s / 3600 := by positivity
  have hun : PhotoOffloader._dms_to_decimal (d, m, s) ref =
      if NEGATIVE_DIRECTIONS.contains ref then -(d + m / 60 + s / 3600)
      else d + m / 60 + s / 3600 := rfl
  refine ⟨?_, ?_, ?_, rfl⟩
  · rintro (h | h) <;> subst h <;> rw [hun, if_neg (by decide)] <;> exact hpos
  · rintro (h | h) <;> subst h <;>
      · rw [hun]
        simp [NEGATIVE_DIRECTIONS, List.contains_cons]
        linarith
  · rw [hun]
    by_cases hc : NEGATIVE_DIRECTIONS.contains ref
    · rw [if_pos hc, abs_neg, abs_of_nonneg hpos]
    · rw [if_neg hc, abs_of_nonneg hpos]

/-- C4 witness: the amended theorem applied at the spec's own scenario DMS
triple `(37, 46, 26)` with reference `S`. -/
theorem dms_to_decimal_sign_magnitude_witness :
    (0 : ℚ) ≤ 37 ∧ (0 : ℚ) ≤ 46 ∧ (0 : ℚ) ≤ 26 ∧
    (((("S" : String) = "N" ∨ ("S" : String) = "E") →
        0 ≤ PhotoOffloader._dms_to_decimal (37, 46, 26) "S") ∧
      ((("S" : String) = "S" ∨ ("S" : String) = "W") →
        PhotoOffloader._dms_to_decimal (37, 46, 26) "S" ≤ 0) ∧
      |PhotoOffloader._dms_to_decimal (37, 46, 26) "S"| = 37 + 46 / 60 + 26 / 3600 ∧
      VideoOffloader._dms_to_decimal (37, 46, 26) "S" =
        PhotoOffloader._dms_to_decimal (37, 46, 26) "S") :=
  ⟨by decide, by decide, by decide,
    dms_to_decimal_sign_magnitude 37 46 26 "S" (by decide) (by decide) (by decide)⟩

/-- C10: any hemisphere reference other than exactly `S` or exactly `W`
(lowercase letters, multi-character strings, the empty string) leaves the
decimal non-negated: `_dms_to_decimal` returns
`degrees + minutes/60 + seconds/3600` unchanged, and no reference value
causes an error (the function is total). -/
theorem dms_to_decimal_non_negative_refs (dms : ℚ × ℚ × ℚ) (ref : String)
    (h1 : ref ≠ "S") (h2 : ref ≠ "W") :
    PhotoOffloader._dms_to_decimal dms ref = dms.1 + dms.2.1 / 60 + dms.2.2 / 3600 := by
  show (if NEGATIVE_DIRECTIONS.contains ref then -(dms.1 + dms.2.1 / 60 + dms.2.2 / 3600)
        else dms.1 + dms.2.1 / 60 + dms.2.2 / 3600) = _
  simp [NEGATIVE_DIRECTIONS, List.contains_cons, beq_iff_eq, h1, h2]

/-- C10 witness: the theorem applied at the lowercase reference `"s"`. -/
theorem dms_to_decimal_non_negative_refs_witness :
    (("s" : String) ≠ "S" ∧ ("s" : String) ≠ "W") ∧
      PhotoOffloader._dms_to_decimal (1, 2, 3) "s" = (1 : ℚ) + 2 / 60 + 3 / 3600 :=
  ⟨⟨by decide, by decide⟩,
    dms_to_decimal_non_negative_refs (1, 2, 3) "s" (by decide) (by decide)⟩

/-- Video date parsing sanity: EXIF format with trailing timezone offset. -/
example : VideoOffloader.parseDateValue "2024:08:04 12:30:45-07:00" =
    some ⟨2024, 8, 4, 12, 30, 45, 0⟩ := by decide

/-- Video date parsing sanity: ISO with `T` and fractional seconds. -/
example : VideoOffloader.parseDateValue "2024-08-04T12:30:45.12" =
    some ⟨2024, 8, 4, 12, 30, 45, 120000⟩ := by decide

/-- Video date parsing sanity: date-only fallback converts colons to dashes. -/
example : VideoOffloader.parseDateValue "2024:08:04" = some ⟨2024, 8, 4, 0, 0, 0, 0⟩ := by
  decide

/-- Video date parsing sanity: too-short strings yield nothing. -/
example : VideoOffloader.parseDateValue "20240804" = none := by decide

/-- Location parsing sanity: the spec scenario combined-coordinate string
yields a location. -/
example :
    (VideoOffloader._parse_location
      [("QuickTime:GPSCoordinates", .str "37.7749 -122.4194 100.0")]).isSome = true := by
  decide

/-- DMS regex sanity: the documented example string matches with the three
expected captures. -/
example : dmsPatternMatch "37 deg 46' 26.30\" N" = some (37, 46, "26.30") := by decide

/-- DMS regex sanity: backtracking finds the match of `"37 deg 46"` that the
Python regex finds (minutes capture `"4"`, seconds capture `"6"`). -/
example : dmsPatternMatch "37 deg 46" = some (37, 4, "6") := by decide

/-- DMS regex sanity: a plain decimal string does not match. -/
example : dmsPatternMatch "37.0" = none := by decide

/-- C1 counterexample: an error during parsing does not leave every
optional field `None`.  With `camErrExifPhoto` the camera-info `str()`
conversion raises (modelled by `_parse_exif_camera_info` returning `none`),
yet the extracted record keeps the already-parsed `date_taken`; with
`dateErrExifPhoto` the recovered per-field date parse error still leaves
`camera_make` populated; the video extractor behaves the same on
`camErrVideoMd`. -/
theorem extract_metadata_all_none_cex :
    PhotoOffloader._parse_exif_camera_info camErrExifPhoto.tags = none ∧
    (PhotoOffloader._extract_metadata "a.jpg" (.ok camErrExifPhoto)).date_taken =
      some ⟨2023, 5, 15, 14, 30, 0, 0⟩ ∧
    PhotoOffloader._parse_exif_date dateErrExifPhoto.tags = none ∧
    (PhotoOffloader._extract_metadata "b.jpg" (.ok dateErrExifPhoto)).camera_make =
      some "GoPro" ∧
    VideoOffloader._parse_camera_info camErrVideoMd = none ∧
    (VideoOffloader._extract_metadata "c.mp4" (.ok [camErrVideoMd]) (.error ())).date_taken =
      some ⟨2023, 5, 15, 14, 30, 0, 0⟩ := by
  decide

/-- C1 (amended): per-file metadata extraction is total (never raises):
for every file path and every outcome of the external readers, the
returned record's path equals the input path; when the read itself fails
(the photo open raises; both video probe invocations raise) the record has
every optional field `none`; and when an error escapes the camera-info
parsing stage, the already-parsed date and location are kept and only the
camera fields are `none` (per-field date or location errors recovered
inside their own parsers likewise leave the other fields intact). -/
theorem extract_metadata_error_paths (p : String)
    (opened : Except Unit PhotoOffloader.ExifData)
    (r1 r2 : Except Unit (List TagDict))
    (e : PhotoOffloader.ExifData) (m : TagDict) (ms : List TagDict) :
    ((PhotoOffloader._extract_metadata p opened).path = p ∧
      (VideoOffloader._extract_metadata p r1 r2).path = p) ∧
    (opened = .error () →
      PhotoOffloader._extract_metadata p opened =
        { path := p, date_taken := none, location := none, camera_make := none,
          camera_model := none, software := none }) ∧
    (r1 = .error () → r2 = .error () →
      VideoOffloader._extract_metadata p r1 r2 =
        { path := p, date_taken := none, location := none, camera_make := none,
          camera_model := none, software := none }) ∧
    (opened = .ok e → e.tags.nonempty = true →
      PhotoOffloader._parse_exif_camera_info e.tags = none →
      PhotoOffloader._extract_metadata p opened =
        { path := p, date_taken := PhotoOffloader._parse_exif_date e.tags,
          location := PhotoOffloader._parse_exif_location e.gps, camera_make := none,
          camera_model := none, software := none }) ∧
    (r1 = .ok (m :: ms) → m.nonempty = true →
      VideoOffloader._parse_camera_info m = none →
      VideoOffloader._extract_metadata p r1 r2 =
        { path := p, date_taken := VideoOffloader._parse_date m,
          location := VideoOffloader._parse_location m, camera_make := none,
          camera_model := none, software := none }) := by
  refine ⟨⟨?_, ?_⟩, ?_, ?_, ?_, ?_⟩
  · cases opened with
    | error u => rfl
    | ok e' =>
      by_cases h : e'.tags.nonempty = true <;>
        rcases hc : PhotoOffloader._parse_exif_camera_info e'.tags with _ | ⟨mk, md, sw⟩ <;>
          simp [PhotoOffloader._extract_metadata, h, hc]
  · have hmeta : ∀ metadata : TagDict,
        ((if metadata.nonempty then
            match VideoOffloader._parse_camera_info metadata with
            | some (mk, md, sw) =>
              { path := p, date_taken := VideoOffloader._parse_date metadata,
                location := VideoOffloader._parse_location metadata,
                camera_make := mk, camera_model := md, software := sw }
            | none =>
              { path := p, date_taken := VideoOffloader._parse_date metadata,
                location := VideoOffloader._parse_location metadata }
          else { path := p } : MediaMetadata)).path = p := by
      intro metadata
      by_cases h : metadata.nonempty = true <;>
        rcases hc : VideoOffloader._parse_camera_info metadata with _ | ⟨mk, md, sw⟩ <;>
          simp [h, hc]
    cases r1 with
    | ok l =>
      cases l with
      | nil => rfl
      | cons m0 _ => exact hmeta m0
    | error u =>
      cases r2 with
      | ok l =>
        cases l with
        | nil => rfl
        | cons m0 _ => exact hmeta m0
      | error u2 => rfl
  · intro h
    subst h
    rfl
  · intro h1 h2
    subst h1
    subst h2
    rfl
  · intro ho hn hc
    subst ho
    simp [PhotoOffloader._extract_metadata, hn, hc]
  · intro hr hn hc
    subst hr
    simp [VideoOffloader._extract_metadata, hn, hc]

/-- C1 witness: the amended theorem applied to the camera-info-failure
inputs of the counterexample (and, for the all-`none` conjuncts, to failing
readers). -/
theorem extract_metadata_error_paths_witness :
    PhotoOffloader._extract_metadata "a.jpg" (.error ()) =
      { path := "a.jpg", date_taken := none, location := none, camera_make := none,
        camera_model := none, software := none } ∧
    PhotoOffloader._extract_metadata "a.jpg" (.ok camErrExifPhoto) =
      { path := "a.jpg", date_taken := PhotoOffloader._parse_exif_date camErrExifPhoto.tags,
        location := PhotoOffloader._parse_exif_location camErrExifPhoto.gps,
        camera_make := none, camera_model := none, software := none } ∧
    VideoOffloader._extract_metadata "c.mp4" (.ok [camErrVideoMd]) (.error ()) =
      { path := "c.mp4", date_taken := VideoOffloader._parse_date camErrVideoMd,
        location := VideoOffloader._parse_location camErrVideoMd,
        camera_make := none, camera_model := none, software := none } :=
  ⟨(extract_metadata_error_paths "a.jpg" (.error ()) (.error ()) (.error ())
      camErrExifPhoto camErrVideoMd []).2.1 rfl,
    (extract_metadata_error_paths "a.jpg" (.ok camErrExifPhoto) (.error ()) (.error ())
      camErrExifPhoto camErrVideoMd []).2.2.2.1 rfl rfl (by decide),
    (extract_metadata_error_paths "c.mp4" (.error ()) (.ok [camErrVideoMd]) (.error ())
      camErrExifPhoto camErrVideoMd []).2.2.2.2 rfl rfl (by decide)⟩

/-- C3 (spec-modelled): with the caller's opt-in flag, video extraction
falls back to the filesystem creation timestamp only when metadata parsing
produced no date; a metadata-derived date is never overridden; without the
flag no fallback happens; and the creation date prefers the birth time,
falls back to the modification time, and is absent on `stat` failure. -/
theorem video_file_date_fallback (p : String) (r1 r2 : Except Unit (List TagDict))
    (use_file_date : Bool) (st : Option VideoOffloader.FileStat) :
    (∀ d, (VideoOffloader._extract_metadata p r1 r2).date_taken = some d →
      (VideoOffloader.extractMetadataWithFileDate p r1 r2 use_file_date st).date_taken =
        some d) ∧
    ((VideoOffloader._extract_metadata p r1 r2).date_taken = none → use_file_date = true →
      (VideoOffloader.extractMetadataWithFileDate p r1 r2 use_file_date st).date_taken =
        VideoOffloader._get_file_creation_date st) ∧
    ((VideoOffloader._extract_metadata p r1 r2).date_taken = none → use_file_date = false →
      (VideoOffloader.extractMetadataWithFileDate p r1 r2 use_file_date st).date_taken =
        none) ∧
    (∀ s : VideoOffloader.FileStat,
      VideoOffloader._get_file_creation_date (some s) = some (s.birthtime.getD s.mtime)) ∧
    VideoOffloader._get_file_creation_date none = none := by
  refine ⟨?_, ?_, ?_, ?_, rfl⟩
  · intro d hd
    simp [VideoOffloader.extractMetadataWithFileDate, hd]
  · intro hn hu
    subst hu
    simp [VideoOffloader.extractMetadataWithFileDate, hn]
  · intro hn hu
    subst hu
    simp [VideoOffloader.extractMetadataWithFileDate, hn]
  · intro s
    cases hb : s.birthtime <;> simp [VideoOffloader._get_file_creation_date, hb]

/-- C3 witness: both probes fail, the flag is set and `stat` reports no
birth time, so the date falls back to the modification time. -/
theorem video_file_date_fallback_witness :
    (VideoOffloader._extract_metadata "a.mp4" (.error ()) (.error ())).date_taken = none ∧
    (VideoOffloader.extractMetadataWithFileDate "a.mp4" (.error ()) (.error ()) true
        (some ⟨none, ⟨2024, 1, 2, 3, 4, 5, 0⟩⟩)).date_taken =
      VideoOffloader._get_file_creation_date (some ⟨none, ⟨2024, 1, 2, 3, 4, 5, 0⟩⟩) :=
  ⟨rfl,
    (video_file_date_fallback "a.mp4" (.error ()) (.error ()) true
        (some ⟨none, ⟨2024, 1, 2, 3, 4, 5, 0⟩⟩)).2.1 rfl rfl⟩

/-- C6 counterexample: at `locCexMd` a combined coordinate tag is present
with a first token that is not numeric, yet `_parse_location` does not
yield absent — it falls through to the separate `GPSLatitude`/`GPSLongitude`
tags and returns their decimal parse. -/
theorem parse_location_combined_bad_cex :
    locCexMd.get? "QuickTime:GPSCoordinates" = some (.str "abc def") ∧
    pySplitWS ("abc def" : String).data = ["abc", "def"] ∧
    pyFloat "abc" = none ∧
    VideoOffloader._parse_location locCexMd ≠ none := by
  refine ⟨by decide, by decide, by decide, ?_⟩
  intro h
  exact absurd h (by decide)

/-- C6 (amended: the unparseable combined tag only makes the combined step
contribute nothing; absence is guaranteed only when no separate
latitude/longitude tag pair is present): for every metadata mapping in
which every present combined coordinate tag has fewer than two
whitespace-separated tokens, a non-numeric token among the first two, or a
raising `str()`, and in which the separate latitude and longitude tag
families are not both present, the video location parser returns `none`
without raising. -/
theorem parse_location_combined_unparseable (md : TagDict)
    (hfail : (VideoOffloader.GPS_COORDINATES_TAGS.all fun t =>
        match md.get? t with
        | some v => combinedValueFails v
        | none => true) = true)
    (hsep : ((VideoOffloader.GPS_LATITUDE_TAGS.any fun t => (md.get? t).isSome) &&
        (VideoOffloader.GPS_LONGITUDE_TAGS.any fun t => (md.get? t).isSome)) = false) :
    VideoOffloader._parse_location md = none := by
  rw [List.all_eq_true] at hfail
  have key : ∀ ts : List String,
      (∀ t ∈ ts, (match md.get? t with
        | some v => combinedValueFails v
        | none => true) = true) →
      VideoOffloader.tryCombinedTags md ts = .raised ∨
        VideoOffloader.tryCombinedTags md ts = .fallthrough := by
    intro ts
    induction ts with
    | nil => intro _; right; rfl
    | cons t ts ih =>
      intro h
      have ht := h t (by simp)
      have hrest : ∀ t' ∈ ts, (match md.get? t' with
          | some v => combinedValueFails v
          | none => true) = true := fun t' ht' => h t' (by simp [ht'])
      cases hv : md.get? t with
      | none =>
        simpa [VideoOffloader.tryCombinedTags, hv] using ih hrest
      | some v =>
        rw [hv] at ht
        cases hs : v.pyStr with
        | none => left; simp [VideoOffloader.tryCombinedTags, hv, hs]
        | some s =>
          simp only [combinedValueFails, hs] at ht
          cases hp : pySplitWS s.data with
          | nil =>
            simpa [VideoOffloader.tryCombinedTags, hv, hs, hp] using ih hrest
          | cons p0 rest =>
            cases rest with
            | nil =>
              simpa [VideoOffloader.tryCombinedTags, hv, hs, hp] using ih hrest
            | cons p1 rest2 =>
              rw [hp] at ht
              simp only [Bool.or_eq_true, Option.isNone_iff_eq_none] at ht
              rcases ht with h0 | h1
              · simpa [VideoOffloader.tryCombinedTags, hv, hs, hp, h0] using ih hrest
              · cases hq : pyFloat p0 <;>
                  simpa [VideoOffloader.tryCombinedTags, hv, hs, hp, h1, hq] using ih hrest
  have hguard : ¬ (((VideoOffloader.GPS_LATITUDE_TAGS.any fun t => (md.get? t).isSome) = true) ∧
      ((VideoOffloader.GPS_LONGITUDE_TAGS.any fun t => (md.get? t).isSome) = true)) := by
    rw [Bool.and_eq_false_iff] at hsep
    rcases hsep with h | h <;> simp [h]
  rcases key VideoOffloader.GPS_COORDINATES_TAGS
      (fun t ht => hfail t ht) with h | h
  · simp [VideoOffloader._parse_location, h]
  · simp only [VideoOffloader._parse_location, h]
    rw [VideoOffloader.separateTagsBranch, if_neg hguard]

/-- C6 witness: the amended theorem applied to metadata holding a single
one-token combined tag and no separate latitude/longitude tags. -/
theorem parse_location_combined_unparseable_witness :
    ((VideoOffloader.GPS_COORDINATES_TAGS.all fun t =>
        match TagDict.get? [("Keys:GPSCoordinates", TagVal.str "1.0")] t with
        | some v => combinedValueFails v
        | none => true) = true) ∧
    VideoOffloader._parse_location [("Keys:GPSCoordinates", TagVal.str "1.0")] = none :=
  ⟨by decide,
    parse_location_combined_unparseable [("Keys:GPSCoordinates", TagVal.str "1.0")]
      (by decide) (by decide)⟩

/-- Length of the `{:02d}` conversion for the values a `datetime` month or
day can take. -/
theorem fmt02_length : ∀ n < 100, (fmt02 n).length = 2 := by decide

/-- C5 counterexample: the year is interpolated unpadded (`f"{year}-..."`),
so for the reachable year 5 (EXIF accepts the zero-padded four-digit year
string) the keys are `"5"` and `"5-01"`, not the zero-padded `"0005"` /
`"0005-01"` the claim requires. -/
theorem bucket_key_year_padding_cex :
    PhotoOffloader._get_bucket_key earlyYearPhoto .year = "5" ∧
    ("5" : String) ≠ "0005" ∧
    PhotoOffloader._get_bucket_key earlyYearPhoto .year_month = "5-01" ∧
    ("5-01" : String) ≠ "0005-01" ∧
    strptimeExif "0005:01:02 03:04:05" = some ⟨5, 1, 2, 3, 4, 5, 0⟩ := by
  decide

/-- C5 (amended: month and day are zero-padded to two digits, but the year
is rendered unpadded — four digits only for years 1000–9999): for every
record with a present date, the date-derived bucket keys are the year's
decimal representation, then with `"-"` and the two-digit zero-padded
month, then additionally with the two-digit zero-padded day; the video
variant produces the same keys.  The month/day bounds are the `datetime`
constructor invariants. -/
theorem bucket_key_date_formats (p : MediaMetadata) (d : DateTime)
    (hd : p.date_taken = some d) (hm : d.month ≤ 12) (hday : d.day ≤ 31) :
    PhotoOffloader._get_bucket_key p .year = toString d.year ∧
    PhotoOffloader._get_bucket_key p .year_month =
      toString d.year ++ "-" ++ fmt02 d.month ∧
    PhotoOffloader._get_bucket_key p .year_month_day =
      toString d.year ++ "-" ++ fmt02 d.month ++ "-" ++ fmt02 d.day ∧
    (fmt02 d.month).length = 2 ∧ (fmt02 d.day).length = 2 ∧
    (∀ g, VideoOffloader._get_bucket_key p g = PhotoOffloader._get_bucket_key p g) := by
  refine ⟨?_, ?_, ?_, fmt02_length _ (by omega), fmt02_length _ (by omega), ?_⟩
  · simp [PhotoOffloader._get_bucket_key, hd]
  · simp [PhotoOffloader._get_bucket_key, hd, YEAR_MONTH_SEPARATOR]
  · simp [PhotoOffloader._get_bucket_key, hd, YEAR_MONTH_SEPARATOR]
  · intro g
    cases g <;> rfl

/-- C5 witness: the amended theorem applied to a record dated 2023-05-15. -/
theorem bucket_key_date_formats_witness :
    ({ path := "b.jpg", date_taken := some ⟨2023, 5, 15, 14, 30, 0, 0⟩ } :
        MediaMetadata).date_taken = some ⟨2023, 5, 15, 14, 30, 0, 0⟩ ∧
    (5 : Nat) ≤ 12 ∧ (15 : Nat) ≤ 31 ∧
    PhotoOffloader._get_bucket_key
        { path := "b.jpg", date_taken := some ⟨2023, 5, 15, 14, 30, 0, 0⟩ } .year_month =
      toString (2023 : Nat) ++ "-" ++ fmt02 5 :=
  ⟨rfl, by decide, by decide,
    (bucket_key_date_formats
        { path := "b.jpg", date_taken := some ⟨2023, 5, 15, 14, 30, 0, 0⟩ }
        ⟨2023, 5, 15, 14, 30, 0, 0⟩ rfl (by decide) (by decide)).2.1⟩

/-- Keys after `addToBucket`: unchanged when the key already exists,
appended at the end otherwise (insertion order of `dict.setdefault`). -/
theorem addToBucket_keys (bs : List (String × List MediaMetadata)) (k : String)
    (p : MediaMetadata) :
    (addToBucket bs k p).map Prod.fst =
      if k ∈ bs.map Prod.fst then bs.map Prod.fst else bs.map Prod.fst ++ [k] := by
  induction bs with
  | nil => simp [addToBucket]
  | cons kv rest ih =>
    obtain ⟨k0, l0⟩ := kv
    by_cases h : k0 = k
    · subst h
      simp [addToBucket]
    · simp only [addToBucket, if_neg h, List.map_cons, ih]
      have hne : ¬ k = k0 := fun hk => h hk.symm
      by_cases hm : k ∈ rest.map Prod.fst <;>
        simp [List.mem_cons, hm, hne]

/-- Membership in `addToBucket` under duplicate-free keys: an entry is
either an untouched entry with a different key, or the entry for `k` with
`p` appended to its previous (possibly empty and fresh) contents. -/
theorem mem_addToBucket (bs : List (String × List MediaMetadata)) (k : String)
    (p : MediaMetadata) (kv : String × List MediaMetadata)
    (hnodup : (bs.map Prod.fst).Nodup) (hmem : kv ∈ addToBucket bs k p) :
    (kv ∈ bs ∧ kv.1 ≠ k) ∨
      (∃ prev, kv = (k, prev ++ [p]) ∧
        ((k, prev) ∈ bs ∨ (prev = [] ∧ k ∉ bs.map Prod.fst))) := by
  induction bs with
  | nil =>
    simp only [addToBucket, List.mem_singleton] at hmem
    exact Or.inr ⟨[], by simpa using hmem, Or.inr ⟨rfl, by simp⟩⟩
  | cons hd rest ih =>
    obtain ⟨k0, l0⟩ := hd
    simp only [List.map_cons, List.nodup_cons] at hnodup
    by_cases h : k0 = k
    · subst h
      rw [addToBucket, if_pos rfl] at hmem
      rcases List.mem_cons.mp hmem with hfst | hrest
      · exact Or.inr ⟨l0, hfst, Or.inl (List.mem_cons_self _ _)⟩
      · refine Or.inl ⟨List.mem_cons_of_mem _ hrest, fun hk => ?_⟩
        exact hnodup.1 (hk ▸ List.mem_map_of_mem Prod.fst hrest)
    · rw [addToBucket, if_neg h] at hmem
      rcases List.mem_cons.mp hmem with hfst | hrest
      · subst hfst
        refine Or.inl ⟨List.mem_cons_self _ _, fun hk => h ?_⟩
        have : k = k0 := by simpa using hk.symm
        exact this.symm
      · rcases ih hnodup.2 hrest with ⟨hin, hne⟩ | ⟨prev, hkveq, hprev⟩
        · exact Or.inl ⟨List.mem_cons_of_mem _ hin, hne⟩
        · refine Or.inr ⟨prev, hkveq, ?_⟩
          rcases hprev with hin | ⟨hnil, hnotin⟩
          · exact Or.inl (List.mem_cons_of_mem _ hin)
          · refine Or.inr ⟨hnil, ?_⟩
            simp only [List.map_cons, List.mem_cons]
            rintro (hk | hk)
            · exact h hk.symm
            · exact hnotin hk

/-- Flattening after `addToBucket` is a permutation of the old flattening
with `p` appended. -/
theorem addToBucket_join_perm (bs : List (String × List MediaMetadata)) (k : String)
    (p : MediaMetadata) :
    ((addToBucket bs k p).map Prod.snd).flatten.Perm
      ((bs.map Prod.snd).flatten ++ [p]) := by
  induction bs with
  | nil => simp [addToBucket]
  | cons hd rest ih =>
    obtain ⟨k0, l0⟩ := hd
    by_cases h : k0 = k
    · subst h
      rw [addToBucket, if_pos rfl]
      simp only [List.map_cons, List.flatten_cons]
      rw [List.append_assoc, List.append_assoc]
      exact List.Perm.append_left l0 List.perm_append_comm
    · rw [addToBucket, if_neg h]
      simp only [List.map_cons, List.flatten_cons]
      rw [List.append_assoc]
      exact List.Perm.append_left l0 ih

/-- Invariant of the bucketing fold: duplicate-free keys, every bucket the
filter of the processed prefix at its key, every processed record's key
present, and no empty bucket. -/
theorem bucketFold_inv (key : MediaMetadata → String) (l l₀ : List MediaMetadata)
    (bs : List (String × List MediaMetadata))
    (hnodup : (bs.map Prod.fst).Nodup)
    (hchar : ∀ kv ∈ bs, kv.2 = l₀.filter (fun q => key q == kv.1))
    (hcover : ∀ q ∈ l₀, key q ∈ bs.map Prod.fst)
    (hne : ∀ kv ∈ bs, kv.2 ≠ []) :
    ((l.foldl (fun b q => addToBucket b (key q) q) bs).map Prod.fst).Nodup ∧
    (∀ kv ∈ l.foldl (fun b q => addToBucket b (key q) q) bs,
      kv.2 = (l₀ ++ l).filter (fun q => key q == kv.1)) ∧
    (∀ q ∈ l₀ ++ l, key q ∈ (l.foldl (fun b q => addToBucket b (key q) q) bs).map Prod.fst) ∧
    (∀ kv ∈ l.foldl (fun b q => addToBucket b (key q) q) bs, kv.2 ≠ []) := by
  induction l generalizing l₀ bs with
  | nil =>
    simp only [List.foldl_nil, List.append_nil]
    exact ⟨hnodup, hchar, hcover, hne⟩
  | cons p l ih =>
    have hkeys := addToBucket_keys bs (key p) p
    have hnodup' : ((addToBucket bs (key p) p).map Prod.fst).Nodup := by
      by_cases hmem : key p ∈ bs.map Prod.fst
      · rw [hkeys, if_pos hmem]; exact hnodup
      · rw [hkeys, if_neg hmem]
        rw [List.nodup_append]
        refine ⟨hnodup, List.nodup_singleton _, fun a ha hb => ?_⟩
        have : a = key p := by simpa using hb
        exact hmem (this ▸ ha)
    have hchar' : ∀ kv ∈ addToBucket bs (key p) p,
        kv.2 = (l₀ ++ [p]).filter (fun q => key q == kv.1) := by
      intro kv hkv
      obtain ⟨kk, kl⟩ := kv
      rw [List.filter_append]
      rcases mem_addToBucket bs (key p) p (kk, kl) hnodup hkv with
        ⟨hin, hnek⟩ | ⟨prev, hkveq, hprev⟩
      · simp only at hnek
        have hnil : [p].filter (fun q => key q == (kk, kl).1) = [] := by
          rw [List.filter_eq_nil_iff]
          intro q hq
          have hqp : q = p := by simpa using hq
          subst hqp
          simp only [beq_iff_eq]
          exact fun h => hnek h.symm
        rw [hnil, List.append_nil]
        exact hchar (kk, kl) hin
      · obtain ⟨h1, h2⟩ := Prod.mk.injEq .. |>.mp hkveq
        subst h1
        subst h2
        show prev ++ [p] =
          l₀.filter (fun q => key q == key p) ++ [p].filter (fun q => key q == key p)
        have hp1 : [p].filter (fun q => key q == key p) = [p] := by simp
        rw [hp1]
        rcases hprev with hin | ⟨hnil0, hnotin⟩
        · have hc := hchar (key p, prev) hin
          simp only at hc
          rw [← hc]
        · subst hnil0
          have h0 : l₀.filter (fun q => key q == key p) = [] := by
            rw [List.filter_eq_nil_iff]
            intro q hq
            simp only [beq_iff_eq]
            intro hkq
            exact hnotin (hkq ▸ hcover q hq)
          rw [h0]
    have hcover' : ∀ q ∈ l₀ ++ [p], key q ∈ (addToBucket bs (key p) p).map Prod.fst := by
      intro q hq
      have hsub : ∀ a, a ∈ bs.map Prod.fst → a ∈ (addToBucket bs (key p) p).map Prod.fst := by
        intro a ha
        by_cases hmem : key p ∈ bs.map Prod.fst
        · rw [hkeys, if_pos hmem]; exact ha
        · rw [hkeys, if_neg hmem]; exact List.mem_append_left _ ha
      rcases List.mem_append.mp hq with h1 | h1
      · exact hsub _ (hcover q h1)
      · have hqp : q = p := by simpa using h1
        subst hqp
        by_cases hmem : key q ∈ bs.map Prod.fst
        · rw [hkeys, if_pos hmem]; exact hmem
        · rw [hkeys, if_neg hmem]; exact List.mem_append_right _ (by simp)
    have hne' : ∀ kv ∈ addToBucket bs (key p) p, kv.2 ≠ [] := by
      intro kv hkv
      rcases mem_addToBucket bs (key p) p kv hnodup hkv with ⟨hin, _⟩ | ⟨prev, hkveq, _⟩
      · exact hne kv hin
      · rw [hkveq]; simp
    have hstep := ih (l₀ ++ [p]) (addToBucket bs (key p) p) hnodup' hchar' hcover' hne'
    simpa [List.append_assoc] using hstep

/-- Flattening the bucketing fold appends the processed records, up to
permutation. -/
theorem bucketFold_join_perm (key : MediaMetadata → String) (l : List MediaMetadata)
    (bs : List (String × List MediaMetadata)) :
    ((l.foldl (fun b q => addToBucket b (key q) q) bs).map Prod.snd).flatten.Perm
      ((bs.map Prod.snd).flatten ++ l) := by
  induction l generalizing bs with
  | nil => simp
  | cons p l ih =>
    simp only [List.foldl_cons]
    refine (ih (addToBucket bs (key p) p)).trans ?_
    refine ((addToBucket_join_perm bs (key p) p).append_right l).trans ?_
    rw [List.append_assoc]
    exact List.Perm.refl _

/-- C9: bucketing partitions its input: bucket keys are pairwise distinct,
every bucket is non-empty, each bucket is exactly the subsequence of input
records carrying its key (so each record lands in exactly one bucket and
in-bucket order is input order), and the buckets' contents together are a
permutation (multiset equality) of the input; the video variant computes
the same buckets. -/
theorem bucket_photos_partition (l : List MediaMetadata) (g : GroupBy) :
    ((PhotoOffloader.bucket_photos l g).map Prod.fst).Nodup ∧
    (∀ kv ∈ PhotoOffloader.bucket_photos l g, kv.2 ≠ []) ∧
    (∀ kv ∈ PhotoOffloader.bucket_photos l g,
      kv.2 = l.filter (fun p => PhotoOffloader._get_bucket_key p g == kv.1)) ∧
    ((PhotoOffloader.bucket_photos l g).map Prod.snd).flatten.Perm l ∧
    VideoOffloader.bucket_videos l g = PhotoOffloader.bucket_photos l g := by
  have hinv := bucketFold_inv (fun p => PhotoOffloader._get_bucket_key p g) l [] []
    (by simp) (by simp) (by simp) (by simp)
  obtain ⟨h1, h2, _h3, h4⟩ := hinv
  have hperm := bucketFold_join_perm (fun p => PhotoOffloader._get_bucket_key p g) l []
  refine ⟨h1, fun kv hkv => h4 kv hkv, fun kv hkv => ?_, ?_, ?_⟩
  · have := h2 kv hkv
    simpa using this
  · simpa using hperm
  · have hkeyeq : VideoOffloader._get_bucket_key = PhotoOffloader._get_bucket_key := by
      funext p g'
      cases g' <;> rfl
    rw [VideoOffloader.bucket_videos, PhotoOffloader.bucket_photos]
    simp only [hkeyeq]

/-- C9 witness: the partition theorem applied to a two-record list, reading
off the dated bucket's characterisation. -/
theorem bucket_photos_partition_witness :
    ("2023", [bucketWitnessA]) ∈
      PhotoOffloader.bucket_photos [bucketWitnessA, bucketWitnessB] .year ∧
    [bucketWitnessA] =
      [bucketWitnessA, bucketWitnessB].filter
        (fun p => PhotoOffloader._get_bucket_key p .year == "2023") :=
  ⟨by decide, by
    have h := (bucket_photos_partition [bucketWitnessA, bucketWitnessB] .year).2.2.1
      ("2023", [bucketWitnessA]) (by decide)
    exact h⟩

/-- Characters with equal code points are equal. -/
theorem char_toNat_inj {c d : Char} (h : c.toNat = d.toNat) : c = d :=
  Char.eq_of_val_eq (UInt32.ext h)

theorem strLtList_irrefl : ∀ a, strLtList a a = false
  | [] => rfl
  | c :: cs => by simp [strLtList, strLtList_irrefl cs]

theorem strLtList_asymm : ∀ a b, strLtList a b = true → strLtList b a = false := by
  intro a
  induction a with
  | nil => intro b h; cases b <;> simp [strLtList] at h ⊢
  | cons c cs ih =>
    intro b h
    cases b with
    | nil => simp [strLtList] at h
    | cons d ds =>
      by_cases hcd : c = d
      · subst hcd
        rw [strLtList, if_pos rfl] at h ⊢
        exact ih ds h
      · have hdc : ¬ d = c := fun hh => hcd hh.symm
        rw [strLtList, if_neg hcd] at h
        rw [strLtList, if_neg hdc]
        simp only [decide_eq_true_eq] at h
        simpa using Nat.le_of_lt h

theorem strLtList_trans :
    ∀ a b c, strLtList a b = true → strLtList b c = true → strLtList a c = true := by
  intro a
  induction a with
  | nil =>
    intro b c hab hbc
    cases b with
    | nil => simp [strLtList] at hab
    | cons y ys =>
      cases c with
      | nil => simp [strLtList] at hbc
      | cons z zs => simp [strLtList]
  | cons x xs ih =>
    intro b c hab hbc
    cases b with
    | nil => simp [strLtList] at hab
    | cons y ys =>
      cases c with
      | nil => simp [strLtList] at hbc
      | cons z zs =>
        by_cases hxy : x = y
        · subst hxy
          rw [strLtList, if_pos rfl] at hab
          by_cases hyz : x = z
          · subst hyz
            rw [strLtList, if_pos rfl] at hbc ⊢
            exact ih ys zs hab hbc
          · rw [strLtList, if_neg hyz] at hbc ⊢
            exact hbc
        · rw [strLtList, if_neg hxy] at hab
          simp only [decide_eq_true_eq] at hab
          by_cases hyz : y = z
          · subst hyz
            rw [strLtList, if_neg hxy]
            simpa using hab
          · rw [strLtList, if_neg hyz] at hbc
            simp only [decide_eq_true_eq] at hbc
            have hxz : ¬ x = z := by
              intro h
              subst h
              omega
            rw [strLtList, if_neg hxz]
            simp only [decide_eq_true_eq]
            omega

theorem strLtList_eq_of_incomp :
    ∀ a b, strLtList a b = false → strLtList b a = false → a = b := by
  intro a
  induction a with
  | nil => intro b h1 _; cases b with
    | nil => rfl
    | cons y ys => simp [strLtList] at h1
  | cons x xs ih =>
    intro b h1 h2
    cases b with
    | nil => simp [strLtList] at h2
    | cons y ys =>
      by_cases hxy : x = y
      · subst hxy
        rw [strLtList, if_pos rfl] at h1 h2
        rw [ih ys h1 h2]
      · have hyx : ¬ y = x := fun hh => hxy hh.symm
        rw [strLtList, if_neg hxy] at h1
        rw [strLtList, if_neg hyx] at h2
        simp only [decide_eq_false_iff_not] at h1 h2
        exact absurd (char_toNat_inj (by omega)) hxy

/-- Datetimes with equal lexicographic encodings are equal. -/
theorem toLexDT_inj {a b : DateTime} (h : toLexDT a = toLexDT b) : a = b := by
  cases a
  cases b
  simp only [toLexDT, toLex_inj, Prod.mk.injEq] at h
  obtain ⟨h1, h2, h3, h4, h5, h6, h7⟩ := h
  simp [h1, h2, h3, h4, h5, h6, h7]

theorem pyValLt_irrefl (a : PyVal) : pyValLt a a = false := by
  cases a with
  | int n => simp [pyValLt]
  | str s => simp [pyValLt, strLtList_irrefl]
  | dt d => simp [pyValLt, dtLt]

theorem pyValLt_asymm {a b : PyVal} (h : pyValLt a b = true) : pyValLt b a = false := by
  cases a <;> cases b <;> simp only [pyValLt, pyValRank, decide_eq_true_eq] at h ⊢ <;>
    first
      | omega
      | (exact strLtList_asymm _ _ h)
      | (simp only [dtLt, decide_eq_true_eq, decide_eq_false_iff_not] at h ⊢
         exact lt_asymm h)

theorem pyValLt_trans {a b c : PyVal} (h1 : pyValLt a b = true) (h2 : pyValLt b c = true) :
    pyValLt a c = true := by
  cases a <;> cases b <;> cases c <;>
    simp only [pyValLt, pyValRank, decide_eq_true_eq] at h1 h2 ⊢ <;>
    first
      | omega
      | (exact strLtList_trans _ _ _ h1 h2)
      | (simp only [dtLt, decide_eq_true_eq] at h1 h2 ⊢
         exact lt_trans h1 h2)

theorem pyValLt_eq_of_incomp {a b : PyVal} (h1 : pyValLt a b = false)
    (h2 : pyValLt b a = false) : a = b := by
  cases a with
  | int m =>
    cases b with
    | int n =>
      simp only [pyValLt, decide_eq_false_iff_not] at h1 h2
      have h : m = n := by omega
      rw [h]
    | str t => simp only [pyValLt, pyValRank, decide_eq_false_iff_not] at h1; omega
    | dt e => simp only [pyValLt, pyValRank, decide_eq_false_iff_not] at h1; omega
  | str s =>
    cases b with
    | int n => simp only [pyValLt, pyValRank, decide_eq_false_iff_not] at h2; omega
    | str t =>
      simp only [pyValLt] at h1 h2
      have hd : s.data = t.data := strLtList_eq_of_incomp _ _ h1 h2
      exact congrArg (fun l => PyVal.str (String.mk l)) hd
    | dt e => simp only [pyValLt, pyValRank, decide_eq_false_iff_not] at h1; omega
  | dt d =>
    cases b with
    | int n => simp only [pyValLt, pyValRank, decide_eq_false_iff_not] at h2; omega
    | str t => simp only [pyValLt, pyValRank, decide_eq_false_iff_not] at h2; omega
    | dt e =>
      simp only [pyValLt, dtLt, decide_eq_false_iff_not] at h1 h2
      exact congrArg PyVal.dt (toLexDT_inj (le_antisymm (le_of_not_lt h2) (le_of_not_lt h1)))

theorem pyListLt_asymm : ∀ x y, pyListLt x y = true → pyListLt y x = false := by
  intro x
  induction x with
  | nil =>
    intro y h
    cases y with
    | nil => simp [pyListLt] at h
    | cons b bs => simp [pyListLt]
  | cons a as ih =>
    intro y h
    cases y with
    | nil => simp [pyListLt] at h
    | cons b bs =>
      by_cases hab : pyValLt a b = true
      · have hba := pyValLt_asymm hab
        rw [pyListLt, if_neg (by simp [hba]), if_pos hab]
      · by_cases hba : pyValLt b a = true
        · rw [pyListLt, if_neg hab, if_pos hba] at h
          exact absurd h (by simp)
        · rw [pyListLt, if_neg hab, if_neg hba] at h
          rw [pyListLt, if_neg hba, if_neg hab]
          exact ih bs h

theorem pyListLt_comparison :
    ∀ x y z, pyListLt x z = true → pyListLt x y = true ∨ pyListLt y z = true := by
  intro x
  induction x with
  | nil =>
    intro y z h
    cases z with
    | nil => simp [pyListLt] at h
    | cons c cs =>
      cases y with
      | nil => right; exact h
      | cons b bs => left; simp [pyListLt]
  | cons a as ih =>
    intro y z h
    cases z with
    | nil => simp [pyListLt] at h
    | cons c cs =>
      cases y with
      | nil => right; simp [pyListLt]
      | cons b bs =>
        by_cases hab : pyValLt a b = true
        · left
          rw [pyListLt, if_pos hab]
        · by_cases hba : pyValLt b a = true
          · by_cases hac : pyValLt a c = true
            · right
              rw [pyListLt, if_pos (pyValLt_trans hba hac)]
            · by_cases hca : pyValLt c a = true
              · rw [pyListLt, if_neg hac, if_pos hca] at h
                exact absurd h (by simp)
              · have hacq := pyValLt_eq_of_incomp (by simpa using hac) (by simpa using hca)
                right
                rw [pyListLt, if_pos (hacq ▸ hba)]
          · have habq := pyValLt_eq_of_incomp (by simpa using hab) (by simpa using hba)
            subst habq
            by_cases hac : pyValLt a c = true
            · right
              rw [pyListLt, if_pos hac]
            · by_cases hca : pyValLt c a = true
              · rw [pyListLt, if_neg hac, if_pos hca] at h
                exact absurd h (by simp)
              · have hacq := pyValLt_eq_of_incomp (by simpa using hac) (by simpa using hca)
                rw [pyListLt, if_neg hac, if_neg hca] at h
                rcases ih bs cs h with h1 | h1
                · left
                  rw [pyListLt, if_neg (by simp [pyValLt_irrefl]),
                    if_neg (by simp [pyValLt_irrefl])]
                  exact h1
                · right
                  subst hacq
                  rw [pyListLt, if_neg (by simp [pyValLt_irrefl]),
                    if_neg (by simp [pyValLt_irrefl])]
                  exact h1

/-- The sorted output of `sort_photos`: pairwise non-decreasing sort keys. -/
theorem sort_photos_pairwise (l : List MediaMetadata) (g : GroupBy) :
    List.Pairwise
      (fun a b =>
        (! pyListLt (PhotoOffloader._get_sort_key b g) (PhotoOffloader._get_sort_key a g)) =
          true)
      (PhotoOffloader.sort_photos l g) := by
  apply List.sorted_mergeSort
  · intro a b c hab hbc
    simp only [Bool.not_eq_true'] at hab hbc ⊢
    by_contra hca
    rw [Bool.not_eq_false] at hca
    rcases pyListLt_comparison _ (PhotoOffloader._get_sort_key b g) _ hca with h | h
    · exact absurd h (by simp [hbc])
    · exact absurd h (by simp [hab])
  · intro a b
    by_cases h : pyListLt (PhotoOffloader._get_sort_key b g) (PhotoOffloader._get_sort_key a g) = true
    · have := pyListLt_asymm _ _ h
      simp [h, this]
    · simp [h]

/-- A record with an absent grouping attribute has a strictly larger sort
key than any record with a present one (tag 1 versus tag 0). -/
theorem sortKey_absent_lt_present (g : GroupBy) (x y : MediaMetadata)
    (hx : attrPresent g x = false) (hy : attrPresent g y = true) :
    pyListLt (PhotoOffloader._get_sort_key y g) (PhotoOffloader._get_sort_key x g) = true := by
  cases g with
  | software =>
    cases hx2 : x.software with
    | some s => simp [attrPresent, hx2] at hx
    | none =>
      cases hy2 : y.software with
      | none => simp [attrPresent, hy2] at hy
      | some s => simp [PhotoOffloader._get_sort_key, hx2, hy2, pyListLt, pyValLt]
  | camera_make =>
    cases hx2 : x.camera_make with
    | some s => simp [attrPresent, hx2] at hx
    | none =>
      cases hy2 : y.camera_make with
      | none => simp [attrPresent, hy2] at hy
      | some s => simp [PhotoOffloader._get_sort_key, hx2, hy2, pyListLt, pyValLt]
  | camera_model =>
    cases hx2 : x.camera_model with
    | some s => simp [attrPresent, hx2] at hx
    | none =>
      cases hy2 : y.camera_model with
      | none => simp [attrPresent, hy2] at hy
      | some s => simp [PhotoOffloader._get_sort_key, hx2, hy2, pyListLt, pyValLt]
  | year =>
    cases hx2 : x.date_taken with
    | some d => simp [attrPresent, hx2] at hx
    | none =>
      cases hy2 : y.date_taken with
      | none => simp [attrPresent, hy2] at hy
      | some d => simp [PhotoOffloader._get_sort_key, hx2, hy2, pyListLt, pyValLt]
  | year_month =>
    cases hx2 : x.date_taken with
    | some d => simp [attrPresent, hx2] at hx
    | none =>
      cases hy2 : y.date_taken with
      | none => simp [attrPresent, hy2] at hy
      | some d => simp [PhotoOffloader._get_sort_key, hx2, hy2, pyListLt, pyValLt]
  | year_month_day =>
    cases hx2 : x.date_taken with
    | some d => simp [attrPresent, hx2] at hx
    | none =>
      cases hy2 : y.date_taken with
      | none => simp [attrPresent, hy2] at hy
      | some d => simp [PhotoOffloader._get_sort_key, hx2, hy2, pyListLt, pyValLt]

/-- Tuple comparison skips an equal head. -/
theorem pyListLt_cons_same (a : PyVal) (as bs : List PyVal) :
    pyListLt (a :: as) (a :: bs) = pyListLt as bs := by
  rw [pyListLt, if_neg (by simp [pyValLt_irrefl]), if_neg (by simp [pyValLt_irrefl])]

/-- Tuple comparison on singletons is element comparison. -/
theorem pyListLt_single (a b : PyVal) : pyListLt [a] [b] = pyValLt a b := by
  by_cases h : pyValLt a b = true
  · rw [pyListLt, if_pos h, h]
  · have hf : pyValLt a b = false := by simpa using h
    by_cases h2 : pyValLt b a = true
    · rw [pyListLt, if_neg h, if_pos h2, hf]
    · rw [pyListLt, if_neg h, if_neg h2, hf]
      rfl

/-- Unfolding a failed tuple comparison. -/
theorem pyListLt_cons_false {a b : PyVal} {as bs : List PyVal}
    (h : pyListLt (a :: as) (b :: bs) = false) :
    pyValLt a b = false ∧ (pyValLt b a = true ∨ pyListLt as bs = false) := by
  by_cases h1 : pyValLt a b = true
  · rw [pyListLt, if_pos h1] at h
    exact absurd h (by simp)
  · have h1f : pyValLt a b = false := by simpa using h1
    by_cases h2 : pyValLt b a = true
    · exact ⟨h1f, Or.inl h2⟩
    · rw [pyListLt, if_neg h1, if_neg h2] at h
      exact ⟨h1f, Or.inr h⟩

/-- Among records with present grouping attributes, non-decreasing sort keys
give the claim's lexical/chronological order on the attribute values. -/
theorem sortKey_le_attrLe (g : GroupBy) (x y : MediaMetadata)
    (hx : attrPresent g x = true) (hy : attrPresent g y = true)
    (hle : pyListLt (PhotoOffloader._get_sort_key y g) (PhotoOffloader._get_sort_key x g) =
      false) :
    attrLe g x y = true := by
  cases g with
  | software =>
    cases hx2 : x.software with
    | none => simp [attrPresent, hx2] at hx
    | some s =>
      cases hy2 : y.software with
      | none => simp [attrPresent, hy2] at hy
      | some t =>
        rw [PhotoOffloader._get_sort_key] at hle
        simp only [PhotoOffloader._get_sort_key, hx2, hy2] at hle
        rw [pyListLt_cons_same, pyListLt_single] at hle
        simp only [pyValLt] at hle
        simp [attrLe, hx2, hy2, hle]
  | camera_make =>
    cases hx2 : x.camera_make with
    | none => simp [attrPresent, hx2] at hx
    | some s =>
      cases hy2 : y.camera_make with
      | none => simp [attrPresent, hy2] at hy
      | some t =>
        simp only [PhotoOffloader._get_sort_key, hx2, hy2] at hle
        rw [pyListLt_cons_same, pyListLt_single] at hle
        simp only [pyValLt] at hle
        simp [attrLe, hx2, hy2, hle]
  | camera_model =>
    cases hx2 : x.camera_model with
    | none => simp [attrPresent, hx2] at hx
    | some s =>
      cases hy2 : y.camera_model with
      | none => simp [attrPresent, hy2] at hy
      | some t =>
        simp only [PhotoOffloader._get_sort_key, hx2, hy2] at hle
        rw [pyListLt_cons_same, pyListLt_single] at hle
        simp only [pyValLt] at hle
        simp [attrLe, hx2, hy2, hle]
  | year =>
    cases hx2 : x.date_taken with
    | none => simp [attrPresent, hx2] at hx
    | some dx =>
      cases hy2 : y.date_taken with
      | none => simp [attrPresent, hy2] at hy
      | some dy =>
        simp only [PhotoOffloader._get_sort_key, hx2, hy2] at hle
        rw [pyListLt_cons_same, pyListLt_single] at hle
        simp only [pyValLt, decide_eq_false_iff_not] at hle
        simp only [attrLe, hx2, hy2, Option.getD_some, decide_eq_true_eq]
        omega
  | year_month =>
    cases hx2 : x.date_taken with
    | none => simp [attrPresent, hx2] at hx
    | some dx =>
      cases hy2 : y.date_taken with
      | none => simp [attrPresent, hy2] at hy
      | some dy =>
        simp only [PhotoOffloader._get_sort_key, hx2, hy2] at hle
        rw [pyListLt_cons_same] at hle
        obtain ⟨h1, h2⟩ := pyListLt_cons_false hle
        simp only [pyValLt, decide_eq_false_iff_not, decide_eq_true_eq] at h1 h2
        simp only [attrLe, hx2, hy2, Option.getD_some, decide_eq_true_eq]
        rcases h2 with h2 | h2
        · omega
        · rw [pyListLt_single] at h2
          simp only [pyValLt, decide_eq_false_iff_not] at h2
          omega
  | year_month_day =>
    cases hx2 : x.date_taken with
    | none => simp [attrPresent, hx2] at hx
    | some dx =>
      cases hy2 : y.date_taken with
      | none => simp [attrPresent, hy2] at hy
      | some dy =>
        simp only [PhotoOffloader._get_sort_key, hx2, hy2] at hle
        rw [pyListLt_cons_same, pyListLt_single] at hle
        simp only [pyValLt, dtLt, decide_eq_false_iff_not] at hle
        have hled : toLexDT dx ≤ toLexDT dy := le_of_not_lt hle
        simp only [attrLe, hx2, hy2, Option.getD_some, decide_eq_true_eq]
        rw [toLexDT, toLexDT, Prod.Lex.le_iff] at hled
        rcases hled with h1 | ⟨h1, h2⟩
        · exact Or.inl h1
        · rw [Prod.Lex.le_iff] at h2
          rcases h2 with h2 | ⟨h2, h3⟩
          · exact Or.inr ⟨h1, Or.inl h2⟩
          · rw [Prod.Lex.le_iff] at h3
            rcases h3 with h3 | ⟨h3, _⟩
            · exact Or.inr ⟨h1, Or.inr ⟨h2, le_of_lt h3⟩⟩
            · exact Or.inr ⟨h1, Or.inr ⟨h2, le_of_eq h3⟩⟩

/-- C7: in the output of `sort_photos`, every record whose grouping
attribute is present appears strictly before every record whose grouping
attribute is absent (if a later position holds a present-attribute record,
so does every earlier one), and among records with present attributes the
order is lexical/chronological on those attribute values; `sort_videos`
produces the same output. -/
theorem sort_photos_present_first_ordered (g : GroupBy) (l : List MediaMetadata)
    (i j : Nat) (hi : i < (PhotoOffloader.sort_photos l g).length)
    (hj : j < (PhotoOffloader.sort_photos l g).length) (hij : i < j) :
    (attrPresent g ((PhotoOffloader.sort_photos l g).get ⟨j, hj⟩) = true →
      attrPresent g ((PhotoOffloader.sort_photos l g).get ⟨i, hi⟩) = true) ∧
    (attrPresent g ((PhotoOffloader.sort_photos l g).get ⟨i, hi⟩) = true →
      attrPresent g ((PhotoOffloader.sort_photos l g).get ⟨j, hj⟩) = true →
      attrLe g ((PhotoOffloader.sort_photos l g).get ⟨i, hi⟩)
        ((PhotoOffloader.sort_photos l g).get ⟨j, hj⟩) = true) ∧
    VideoOffloader.sort_videos l g = PhotoOffloader.sort_photos l g := by
  have hpw := sort_photos_pairwise l g
  have hle := List.pairwise_iff_getElem.mp hpw i j hi hj hij
  simp only [List.get_eq_getElem]
  refine ⟨?_, ?_, ?_⟩
  · intro hpj
    by_contra hpi
    rw [Bool.not_eq_true] at hpi
    have hlt := sortKey_absent_lt_present g _ _ hpi hpj
    rw [hlt] at hle
    exact absurd hle (by simp)
  · intro hpi hpj
    exact sortKey_le_attrLe g _ _ hpi hpj (by simpa using hle)
  · have hkeyeq : VideoOffloader._get_sort_key = PhotoOffloader._get_sort_key := by
      funext p g'
      cases g' <;> rfl
    rw [VideoOffloader.sort_videos, PhotoOffloader.sort_photos]
    simp only [hkeyeq]

/-- C7 witness: the ordering theorem applied at positions 0 < 1 of the sort
of a two-record list. -/
theorem sort_photos_present_first_ordered_witness :
    (0 : Nat) < (PhotoOffloader.sort_photos [bucketWitnessB, bucketWitnessA] .year).length ∧
    VideoOffloader.sort_videos [bucketWitnessB, bucketWitnessA] .year =
      PhotoOffloader.sort_photos [bucketWitnessB, bucketWitnessA] .year :=
  ⟨by simp [PhotoOffloader.sort_photos],
    (sort_photos_present_first_ordered .year [bucketWitnessB, bucketWitnessA] 0 1
      (by simp [PhotoOffloader.sort_photos]) (by simp [PhotoOffloader.sort_photos])
      (by decide)).2.2⟩

/-- C8: after a successful archive operation the zip contains exactly the
allow-listed loose filenames of the destination directory immediately
before archiving (that is, after the copy step), none of those filenames
remain as loose files afterwards, and the archive file itself — whose
suffix is not allow-listed — remains; likewise for the video variant. -/
theorem archive_roundtrip (photos videos : List String) (dest : Finset String) :
    ((PhotoOffloader.archive_photos photos dest).2 =
        (PhotoOffloader.copy_photos photos dest).filter (fun n => is_photo_file n = true) ∧
      (PhotoOffloader.archive_photos photos dest).1 ∩
        (PhotoOffloader.archive_photos photos dest).2 = ∅ ∧
      PhotoOffloader.ARCHIVE_FILENAME ∈ (PhotoOffloader.archive_photos photos dest).1 ∧
      is_photo_file PhotoOffloader.ARCHIVE_FILENAME = false) ∧
    ((VideoOffloader.archive_videos videos dest).2 =
        (VideoOffloader.copy_videos videos dest).filter (fun n => is_video_file n = true) ∧
      (VideoOffloader.archive_videos videos dest).1 ∩
        (VideoOffloader.archive_videos videos dest).2 = ∅ ∧
      VideoOffloader.ARCHIVE_FILENAME ∈ (VideoOffloader.archive_videos videos dest).1 ∧
      is_video_file VideoOffloader.ARCHIVE_FILENAME = false) := by
  constructor
  · refine ⟨?_, ?_, ?_, by decide⟩
    · show (insert PhotoOffloader.ARCHIVE_FILENAME
          (PhotoOffloader.copy_photos photos dest)).filter (fun n => is_photo_file n = true) = _
      rw [Finset.filter_insert, if_neg (by decide)]
    · show ((insert PhotoOffloader.ARCHIVE_FILENAME
            (PhotoOffloader.copy_photos photos dest)).filter (fun n => ¬ is_photo_file n = true)) ∩
          ((insert PhotoOffloader.ARCHIVE_FILENAME
            (PhotoOffloader.copy_photos photos dest)).filter (fun n => is_photo_file n = true)) = ∅
      ext n
      simp only [Finset.mem_inter, Finset.mem_filter, Finset.not_mem_empty, iff_false]
      rintro ⟨⟨_, hnot⟩, ⟨_, hyes⟩⟩
      exact hnot hyes
    · show PhotoOffloader.ARCHIVE_FILENAME ∈ (insert PhotoOffloader.ARCHIVE_FILENAME
          (PhotoOffloader.copy_photos photos dest)).filter (fun n => ¬ is_photo_file n = true)
      rw [Finset.mem_filter]
      exact ⟨Finset.mem_insert_self _ _, by decide⟩
  · refine ⟨?_, ?_, ?_, by decide⟩
    · show (insert VideoOffloader.ARCHIVE_FILENAME
          (VideoOffloader.copy_videos videos dest)).filter (fun n => is_video_file n = true) = _
      rw [Finset.filter_insert, if_neg (by decide)]
    · show ((insert VideoOffloader.ARCHIVE_FILENAME
            (VideoOffloader.copy_videos videos dest)).filter (fun n => ¬ is_video_file n = true)) ∩
          ((insert VideoOffloader.ARCHIVE_FILENAME
            (VideoOffloader.copy_videos videos dest)).filter (fun n => is_video_file n = true)) = ∅
      ext n
      simp only [Finset.mem_inter, Finset.mem_filter, Finset.not_mem_empty, iff_false]
      rintro ⟨⟨_, hnot⟩, ⟨_, hyes⟩⟩
      exact hnot hyes
    · show VideoOffloader.ARCHIVE_FILENAME ∈ (insert VideoOffloader.ARCHIVE_FILENAME
          (VideoOffloader.copy_videos videos dest)).filter (fun n => ¬ is_video_file n = true)
      rw [Finset.mem_filter]
      exact ⟨Finset.mem_insert_self _ _, by decide⟩

/-- Suffix model sanity, mirroring `pathlib.PurePath.suffix`. -/
example : pySuffix "photos.zip" = ".zip" ∧ pySuffix "a.JPG" = ".JPG" ∧
    pySuffix "noext" = "" ∧ pySuffix ".jpg" = "" ∧ pySuffix "a." = "" ∧
    pySuffix "a.b.HEIC" = ".HEIC" := by decide

/-- Allow-list test sanity: uppercase extensions are lowered first. -/
example : is_photo_file "a.JPG" = true ∧ is_photo_file "photos.zip" = false ∧
    is_video_file "b.MOV" = true ∧ is_video_file "videos.zip" = false := by decide

/-- Float model sanity, mirroring the Python builtin. -/
example : pyFloat "abc" = none ∧ pyFloat "1.2.3" = none ∧ pyFloat "." = none ∧
    (pyFloat "37").isSome = true ∧ (pyFloat "-122").isSome = true ∧
    (pyFloat " 1.5 ").isSome = true ∧ (pyFloat ".5").isSome = true ∧
    (pyFloat "5.").isSome = true ∧ (pyFloat "1e3").isSome = true := by decide

/-- Whitespace-split sanity. -/
example : pySplitWS ("a  b\tc " : String).data = ["a", "b", "c"] := by decide

/-- Timezone-strip sanity: only a trailing `[+-]HH:MM` is removed. -/
example : tzStrip "2024:08:04 12:30:45-07:00" = "2024:08:04 12:30:45" ∧
    tzStrip "x+01:02+03:04" = "x+01:02" ∧ tzStrip "2024:08:04" = "2024:08:04" := by decide

/-- DMS regex sanity: greedy minutes capture with a dotted tail. -/
example : dmsPatternMatch "37 deg 4626.30" = some (37, 4626, ".30") := by decide

/-- Float model value sanity: an integer token parses to its exact value. -/
example : pyFloat "37" = some 37 := by
  have h1 : pyFloat "37" = some ((digitsToNat ['3', '7'] : ℚ) / 10 ^ 0 * 10 ^ (0 : ℤ)) := rfl
  have h2 : digitsToNat ['3', '7'] = 37 := by decide
  rw [h1, h2]
  norm_num

/-- Float model value sanity: a decimal token parses to the exact rational. -/
example : pyFloat "-122.5" = some (-(245 / 2)) := by
  have h1 : pyFloat "-122.5" =
      some (-((digitsToNat ['1', '2', '2', '5'] : ℚ) / 10 ^ 1 * 10 ^ (0 : ℤ))) := rfl
  have h2 : digitsToNat ['1', '2', '2', '5'] = 1225 := by decide
  rw [h1, h2]
  norm_num

/-- Video date cascade sanity against the CPython behaviour: format parses,
whitespace runs, one-digit fields, and all fallback branches. -/
example :
    VideoOffloader.parseDateValue "2024:08:04 garbage" = some ⟨2024, 8, 4, 0, 0, 0, 0⟩ ∧
    VideoOffloader.parseDateValue "2024-08-04" = some ⟨2024, 8, 4, 0, 0, 0, 0⟩ ∧
    VideoOffloader.parseDateValue "2024-08-04T07:08:09.1234567" =
      some ⟨2024, 8, 4, 0, 0, 0, 0⟩ ∧
    VideoOffloader.parseDateValue "2023:1:2 3:4:5" = some ⟨2023, 1, 2, 3, 4, 5, 0⟩ ∧
    VideoOffloader.parseDateValue "2023:01:02  03:04:05" = some ⟨2023, 1, 2, 3, 4, 5, 0⟩ ∧
    VideoOffloader.parseDateValue "2023:01:02\t03:04:05" = some ⟨2023, 1, 2, 3, 4, 5, 0⟩ ∧
    VideoOffloader.parseDateValue "2024:08:04 12:30:45+05:30" =
      some ⟨2024, 8, 4, 12, 30, 45, 0⟩ ∧
    VideoOffloader.parseDateValue "junk T more" = none ∧
    VideoOffloader.parseDateValue "1:2:3 4:5:6" = none := by
  decide

/-- EXIF strptime sanity against CPython: leap seconds, month 13, year 0,
five-digit years and trailing input are all rejected. -/
example :
    strptimeExif "2023:01:02 03:04:60" = none ∧
    strptimeExif "2023:13:02 03:04:05" = none ∧
    strptimeExif "0000:01:02 03:04:05" = none ∧
    strptimeExif "12345:01:02 03:04:05" = none ∧
    strptimeExif "2023:01:02 03:04:5X" = none := by
  decide
